import Mathlib

/-!
Verification of the screengrabAI capture pipeline.

This file shallowly embeds the storage-based capture queue
(capture-queue.js), the background orchestrator (background.js), the
AI gateway (ai-service.js) and the popup full-page capture loop into
Lean and proves the specified properties about them.

Modelling conventions:
* JavaScript objects stored in chrome.storage.local are association
  lists from string keys to values (JsObj); object spread is the
  left-to-right fold of key updates, which reproduces the lookup
  semantics of the spread operator.
* Asynchronous browser and network effects are supplied by an
  environment record; each function returns its value together with a
  trace of observable events (state writes, network requests, capture
  shots, timed delays).
* Absent object properties are modelled as a missing key; a key whose
  value is Null or Undef models an explicit null or undefined value.
-/

/-- A JavaScript value as it appears in the capture state objects.
The res constructor holds the combined analysis result produced by
formatResult in background.js: the markdown rendering of the vision
description followed by the rendering of the analysis.  Markdown
rendering is presentation (out of scope in the design), so the result
is kept as the pair of rendered parts instead of one flat string. -/
inductive JsVal where
  | null
  | undef
  | num (n : Int)
  | str (s : String)
  | res (description analysis : String)
  deriving DecidableEq, Repr

/-- A JavaScript object: an association list of string keys to values.
Keys earlier in the list shadow later ones for lookup. -/
abbrev JsObj := List (String × JsVal)

/-- Property lookup: the first binding of the key, if any. -/
def getField : JsObj → String → Option JsVal
  | [], _ => none
  | (k', v) :: rest, k => if k' = k then some v else getField rest k

/-- Property write: replace the first binding of the key in place, or
append a new binding.  This is how an object spread or assignment
updates a key while keeping every other key intact. -/
def setField : JsObj → String → JsVal → JsObj
  | [], k, v => [(k, v)]
  | (k', v') :: rest, k, v =>
      if k' = k then (k, v) :: rest else (k', v') :: setField rest k v

/-- Object spread of upd over base, as in the expression with three
dots: every key of upd overrides the same key of base, keys of base
not named in upd are kept. -/
def spread (base upd : JsObj) : JsObj :=
  upd.foldl (fun acc p => setField acc p.1 p.2) base

/-! ## String helpers shared by several source files -/

/-- JavaScript String.prototype.includes. -/
def hasInfixAux (pat : List Char) : List Char → Bool
  | [] => pat.isEmpty
  | c :: rest => pat.isPrefixOf (c :: rest) || hasInfixAux pat rest

/-- s.includes(pat) of JavaScript. -/
def strIncludes (s pat : String) : Bool := hasInfixAux pat.toList s.toList

/-- s.startsWith(pat) of JavaScript. -/
def strStartsWith (s pat : String) : Bool := pat.toList.isPrefixOf s.toList

/-- A word character for the regex word boundary. -/
def isWordChar (c : Char) : Bool := c.isAlpha || c.isDigit || c = '_'

/-- Whether the SSN regex (three digits, dash, two digits, dash, four
digits, with word boundaries on both sides) matches at the head of the
list, given the character preceding the head (none at string start). -/
def ssnHere (prev : Option Char) : List Char → Bool
  | c1 :: c2 :: c3 :: d1 :: c4 :: c5 :: d2 :: c6 :: c7 :: c8 :: c9 :: rest =>
      c1.isDigit && c2.isDigit && c3.isDigit && d1 = '-' &&
      c4.isDigit && c5.isDigit && d2 = '-' &&
      c6.isDigit && c7.isDigit && c8.isDigit && c9.isDigit &&
      (match prev with | none => true | some p => !(isWordChar p)) &&
      (match rest with | [] => true | r :: _ => !(isWordChar r))
  | _ => false

/-- Global scan of the SSN regex with replacement, as performed by
sanitizeSensitiveData in background.js.  After a match the scan resumes
past the match; the preceding character is then the last matched digit,
modelled by the digit zero (only its word-character status matters).
The fuel argument (at least the length of the list, so the zero case
is never hit on a nonempty list) makes the recursion structural. -/
def sanitizeChars : Nat → Option Char → List Char → List Char
  | _, _, [] => []
  | 0, _, _ :: _ => []
  | fuel + 1, prev, c :: rest =>
      if ssnHere prev (c :: rest) then
        "[REDACTED_SSN]".toList ++ sanitizeChars fuel (some '0') (rest.drop 10)
      else
        c :: sanitizeChars fuel (some c) rest

/-- background.js sanitizeSensitiveData: redact SSN patterns. -/
def sanitizeSensitiveData (data : String) : String :=
  ⟨sanitizeChars data.toList.length none data.toList⟩

/-- background.js isRestrictedUrl.  The argument is the url property of
the capture request; none models a missing property (JS undefined), and
the empty string is likewise falsy. -/
def isRestrictedUrl (url : Option String) : Bool :=
  match url with
  | none => true
  | some u =>
      if u = "" then true
      else
        ["chrome://", "chrome-extension://", "edge://", "opera://", "about:",
         "moz-extension://", "chrome-error://",
         "https://chromewebstore.google.com/",
         "https://chrome.google.com/webstore"].any (fun p => strStartsWith u p)

/-! ## Settings and the shared capture state store -/

/-- The merged settings record returned by CaptureQueue.getSettings:
the screengrabSettings blob together with the separately stored API
keys.  An absent provider, model or key is the empty string, matching
the JS defaulting of the keys to the empty string and the falsiness
checks on providers and keys. -/
structure Settings where
  visionApiProvider : String
  textApiProvider : String
  visionModel : String
  textModel : String
  ollamaApiKey : String
  googleApiKey : String
  openaiApiKey : String
  anthropicApiKey : String
  geminiApiKey : String
  deriving DecidableEq, Repr

def defaultSettings : Settings := ⟨"", "", "", "", "", "", "", "", ""⟩

/-- The relevant keys of chrome.storage.local: the capture request, the
current capture state, the active capture tab marker, and the settings
(read-only for the code modelled here). -/
structure Store where
  captureRequest : Option JsObj
  currentCapture : Option JsObj
  activeCaptureTabId : Option Int
  settings : Settings
  deriving DecidableEq, Repr

def emptyStore (s : Settings) : Store := ⟨none, none, none, s⟩

namespace CaptureQueue

/-- capture-queue.js enqueue: enrich the request with an id, a
timestamp and the pending status, then store it (last write wins). -/
def enqueue (st : Store) (request : JsObj) (idStr : String) (now : Int) :
    String × Store :=
  let enrichedRequest :=
    setField (setField (setField (spread [] request) "id" (.str idStr))
      "timestamp" (.num now)) "status" (.str "pending")
  (idStr, { st with captureRequest := some enrichedRequest })

/-- capture-queue.js dequeue: claim a pending request by flipping its
status to processing and writing it back; otherwise return null and
leave the store unchanged. -/
def dequeue (st : Store) : Option JsObj × Store :=
  match st.captureRequest with
  | some request =>
      if getField request "status" = some (.str "pending") then
        let request' := setField request "status" (.str "processing")
        (some request', { st with captureRequest := some request' })
      else (none, st)
  | none => (none, st)

/-- capture-queue.js clear: remove the request key. -/
def clear (st : Store) : Store := { st with captureRequest := none }

/-- capture-queue.js updateState: shallow-merge the update into the
current state (an absent state is the empty object) and stamp
updatedAt with the current time. -/
def updateState (st : Store) (upd : JsObj) (now : Int) : Store :=
  let current := st.currentCapture.getD []
  let newState := setField (spread current upd) "updatedAt" (.num now)
  { st with currentCapture := some newState }

/-- capture-queue.js getState. -/
def getState (st : Store) : Option JsObj := st.currentCapture

/-- capture-queue.js reset: remove both the request and the state. -/
def reset (st : Store) : Store :=
  { st with captureRequest := none, currentCapture := none }

/-- capture-queue.js cancel. -/
def cancel (st : Store) (now : Int) : Store :=
  updateState st [("status", .str "cancelled")] now

/-- capture-queue.js getSettings: the stored settings merged with the
separately stored API keys (the merge with empty-string defaults is
folded into the Settings record). -/
def getSettings (st : Store) : Settings := st.settings

end CaptureQueue

/-- background.js handleCancelCapture: cancel, then immediately reset. -/
def handleCancelCapture (st : Store) (now : Int) : Store :=
  CaptureQueue.reset (CaptureQueue.cancel st now)

/-! ## Observable events of the pipeline -/

/-- The observable actions of the embedded code: capture state writes
(recording the full new state object), network requests, entries into
the three AI gateway operations, invocations of the browser capture
primitive, scrolls, and timed delays. -/
inductive Event where
  | stateWrite (s : JsObj)
  | netRequest (url : String)
  | describeImageEv
  | analyzeTextEv
  | askFollowUpEv
  | shotAttempt
  | scrollTo (x y : Int)
  | restoreScroll (x y : Int)
  | delayMs (n : Nat)
  | areaSelectStart
  deriving DecidableEq, Repr

/-! ## AI gateway (ai-service.js)

Network effects are supplied by an environment record AIEnv: each
fetch site of the source has a field giving the outcome of that fetch.
The JSON plumbing of a response is folded into the outcome (for
example, the content string extracted from a chat completion), and the
request body construction is folded into the request event; the
control flow around the fetch (status checks, fallbacks, defaults,
timeout races) is embedded faithfully. -/

namespace AIService

def endpointLocal : String := "http://localhost:11434"

def endpointCloud : String := "https://ollama.com"

def endpointGoogleVision : String := "https://vision.googleapis.com/v1"

def endpointOpenai : String := "https://api.openai.com/v1"

def endpointAnthropic : String := "https://api.anthropic.com/v1"

def endpointGoogleGemini : String := "https://generativelanguage.googleapis.com/v1beta"

/-- ai-service.js getBaseUrl. -/
def getBaseUrl (provider : String) : String :=
  if provider = "ollama-cloud" then endpointCloud
  else if provider = "google-vision" then endpointGoogleVision
  else if provider = "openai" then endpointOpenai
  else if provider = "anthropic" then endpointAnthropic
  else if provider = "google-gemini" then endpointGoogleGemini
  else endpointLocal

/-- Outcome of a GET /api/tags fetch against the local Ollama server. -/
inductive TagsResp where
  | fetchErr (msg : String)
  | notOkResp
  | okTags (models : List String)
  deriving Repr

/-- Outcome of the chat completions attempt of describeImageOllama:
the fetch threw, the response was not ok, or it was ok with the
content of choices[0].message.content (none when absent). -/
inductive ChatResp where
  | fetchThrew
  | notOkResp
  | okContent (content : Option String)
  deriving Repr

/-- Outcome of a POST /api/generate fetch: a non-2xx status with its
body text, or an ok response with data.response (the empty string
models a falsy response value). -/
inductive GenResp where
  | notOkResp (status : Nat) (bodyText : String)
  | okResp (response : String)
  deriving Repr

/-- Environment of network outcomes for the AI gateway, one field per
fetch site.  For the Google Vision error path the constructed error
message (including the 403 special-casing) is supplied whole. -/
structure AIEnv where
  localTags : TagsResp := .okTags []
  ollamaVisionChat : ChatResp := .fetchThrew
  ollamaVisionGen : GenResp := .okResp ""
  ollamaVisionTimedOut : Bool := false
  gvResp : Except String (Option String) := .ok none
  gvTimedOut : Bool := false
  openaiVision : Except String String := .ok ""
  openaiText : Except String String := .ok ""
  openaiFollow : Except String String := .ok ""
  anthropicVision : Except String String := .ok ""
  anthropicText : Except String String := .ok ""
  anthropicFollow : Except String String := .ok ""
  geminiVision : Except String String := .ok ""
  geminiText : Except String String := .ok ""
  geminiFollow : Except String String := .ok ""
  ollamaTextGen : GenResp := .okResp ""
  ollamaTextTimedOut : Bool := false
  ollamaFollowGen : GenResp := .okResp ""
  ollamaFollowTimedOut : Bool := false
  openaiModels : Except String (List String) := .ok []
  anthropicModels : Except String (List (String × Option String)) := .ok []
  geminiModels : Except String (List (String × Option String)) := .ok []

/-- ai-service.js checkLocalHealth: fetch the tags endpoint, translate
connection failures to a friendly message, surface non-2xx as a
dedicated error. -/
def checkLocalHealth (env : AIEnv) : Except String (List String) × List Event :=
  let evs := [Event.netRequest (endpointLocal ++ "/api/tags")]
  match env.localTags with
  | .fetchErr m =>
      if strIncludes m "Failed to fetch" || strIncludes m "NetworkError" then
        (.error "Cannot connect to Ollama at localhost:11434. Is it running?", evs)
      else (.error m, evs)
  | .notOkResp => (.error "Ollama is not responding", evs)
  | .okTags models => (.ok models, evs)

/-- ai-service.js hasLocalModel. -/
def hasLocalModel (env : AIEnv) (modelName : String) :
    Except String Bool × List Event :=
  match checkLocalHealth env with
  | (.error m, evs) => (.error m, evs)
  | (.ok models, evs) =>
      let baseModelName := (modelName.splitOn ":").headD modelName
      (.ok (models.any (fun m => strIncludes m baseModelName)), evs)

/-- ai-service.js getLocalModels: any failure yields the empty list. -/
def getLocalModels (env : AIEnv) : List String × List Event :=
  let evs := [Event.netRequest (endpointLocal ++ "/api/tags")]
  match env.localTags with
  | .okTags models => (models, evs)
  | _ => ([], evs)

/-- ai-service.js validateRequiredKey: fail fast with a named message
when the provider requires a credential that is absent. -/
def validateRequiredKey (provider : String) (settings : Settings) :
    Except String Unit :=
  if provider = "openai" && settings.openaiApiKey = "" then
    .error "OpenAI API Key is required"
  else if provider = "anthropic" && settings.anthropicApiKey = "" then
    .error "Anthropic API Key is required"
  else if provider = "google-gemini" && settings.geminiApiKey = "" then
    .error "Gemini API Key is required"
  else if provider = "ollama-cloud" && settings.ollamaApiKey = "" then
    .error "Ollama Cloud API Key is required"
  else if provider = "google-vision" && settings.googleApiKey = "" then
    .error "Google Cloud Vision API Key is required"
  else .ok ()

/-- The availability check of describeImageOllama: for the local
provider, demand that the vision model is installed locally. -/
def describeImageOllamaAvail (env : AIEnv) (settings : Settings) :
    Except String Unit × List Event :=
  if settings.visionApiProvider = "ollama-cloud" then (.ok (), [])
  else
    match hasLocalModel env settings.visionModel with
    | (.error m, evs) => (.error m, evs)
    | (.ok hasModel, evs) =>
        if hasModel then (.ok (), evs)
        else
          (.error (settings.visionModel ++ " model not found. Run: ollama pull "
            ++ settings.visionModel), evs)

/-- The fetch part of describeImageOllama: the chat completions
attempt with silent fallback to the generate API. -/
def describeImageOllamaFetch (env : AIEnv) (baseUrl : String) :
    Except String String × List Event :=
  let chatEvs := [Event.netRequest (baseUrl ++ "/v1/chat/completions")]
  let chatResult : Option String :=
    match env.ollamaVisionChat with
    | .okContent (some content) =>
        if content ≠ "" && !(strIncludes content "/v1/chat/completions")
           && !(strIncludes content "OpenAI-compatible") then some content
        else none
    | _ => none
  match chatResult with
  | some content => (.ok content, chatEvs)
  | none =>
      let genEvs := chatEvs ++ [Event.netRequest (baseUrl ++ "/api/generate")]
      match env.ollamaVisionGen with
      | .notOkResp status bodyText =>
          (.error ("Vision analysis failed (" ++ toString status ++ "): "
            ++ bodyText), genEvs)
      | .okResp response =>
          if response = "" then
            (.error "Model returned empty response. Try a different vision model.",
             genEvs)
          else (.ok response, genEvs)

/-- ai-service.js describeImageOllama: local model availability check,
chat completions attempt with silent fallback to the generate API, a
timeout race, and a default for an empty result. -/
def describeImageOllama (env : AIEnv) (settings : Settings) :
    Except String String × List Event :=
  let baseUrl := getBaseUrl settings.visionApiProvider
  match describeImageOllamaAvail env settings with
  | (.error m, evs0) => (.error m, evs0)
  | (.ok _, evs0) =>
      let fetched := describeImageOllamaFetch env baseUrl
      let raced : Except String String :=
        if env.ollamaVisionTimedOut then .error "Vision analysis timeout (120s)"
        else fetched.1
      match raced with
      | .ok r =>
          (.ok (if r = "" then "No text extracted from image" else r), evs0 ++ fetched.2)
      | .error m => (.error m, evs0 ++ fetched.2)

/-- ai-service.js describeImageGoogleVision. -/
def describeImageGoogleVision (env : AIEnv) (settings : Settings) :
    Except String String × List Event :=
  if settings.googleApiKey = "" then
    (.error "Google Cloud Vision API key is required", [])
  else
    let evs := [Event.netRequest (endpointGoogleVision ++ "/images:annotate?key="
      ++ settings.googleApiKey)]
    let fetched : Except String String :=
      match env.gvResp with
      | .error m => .error m
      | .ok none => .ok "No text detected in image"
      | .ok (some t) => .ok t
    let raced : Except String String :=
      if env.gvTimedOut then .error "Google Vision analysis timeout (120s)" else fetched
    match raced with
    | .ok r => (.ok (if r = "" then "No text extracted from image" else r), evs)
    | .error m => (.error m, evs)

/-- ai-service.js describeImageOpenAI. -/
def describeImageOpenAI (env : AIEnv) (settings : Settings) :
    Except String String × List Event :=
  let evs := [Event.netRequest (endpointOpenai ++ "/chat/completions")]
  match env.openaiVision with
  | .error err => (.error ("OpenAI Vision failed: " ++ err), evs)
  | .ok content => (.ok content, evs)

/-- ai-service.js describeImageAnthropic. -/
def describeImageAnthropic (env : AIEnv) (settings : Settings) :
    Except String String × List Event :=
  let evs := [Event.netRequest (endpointAnthropic ++ "/messages")]
  match env.anthropicVision with
  | .error err => (.error ("Anthropic Vision failed: " ++ err), evs)
  | .ok content => (.ok content, evs)

/-- ai-service.js describeImageGemini. -/
def describeImageGemini (env : AIEnv) (settings : Settings) :
    Except String String × List Event :=
  let model := if settings.visionModel = "" then "gemini-2.0-flash-exp"
    else settings.visionModel
  let evs := [Event.netRequest (endpointGoogleGemini ++ "/models/" ++ model
    ++ ":generateContent?key=" ++ settings.geminiApiKey)]
  match env.geminiVision with
  | .error err => (.error ("Gemini Vision failed: " ++ err), evs)
  | .ok content => (.ok (if content = "" then "No text detected" else content), evs)

/-- ai-service.js describeImage: validate the credential, then dispatch
on the vision provider. -/
def describeImage (env : AIEnv) (base64Image : String) (settings : Settings) :
    Except String String × List Event :=
  let ev0 := [Event.describeImageEv]
  match validateRequiredKey settings.visionApiProvider settings with
  | .error m => (.error m, ev0)
  | .ok _ =>
      let p := settings.visionApiProvider
      if p = "ollama" || p = "ollama-cloud" then
        let r := describeImageOllama env settings
        (r.1, ev0 ++ r.2)
      else if p = "google-vision" then
        let r := describeImageGoogleVision env settings
        (r.1, ev0 ++ r.2)
      else if p = "openai" then
        let r := describeImageOpenAI env settings
        (r.1, ev0 ++ r.2)
      else if p = "anthropic" then
        let r := describeImageAnthropic env settings
        (r.1, ev0 ++ r.2)
      else if p = "google-gemini" then
        let r := describeImageGemini env settings
        (r.1, ev0 ++ r.2)
      else (.error ("Unknown vision provider: " ++ p), ev0)

/-- ai-service.js analyzeTextOllama. -/
def analyzeTextOllama (env : AIEnv) (text : String) (settings : Settings) :
    Except String String × List Event :=
  let baseUrl := getBaseUrl settings.textApiProvider
  let evs := [Event.netRequest (baseUrl ++ "/api/generate")]
  let fetched : Except String String :=
    match env.ollamaTextGen with
    | .notOkResp status bodyText =>
        .error ("Text analysis failed (" ++ toString status ++ "): " ++ bodyText)
    | .okResp response => .ok response
  let raced : Except String String :=
    if env.ollamaTextTimedOut then .error "Text analysis timeout (120s)" else fetched
  match raced with
  | .ok r => (.ok (if r = "" then "No analysis generated" else r), evs)
  | .error m => (.error m, evs)

/-- ai-service.js analyzeTextOpenAI. -/
def analyzeTextOpenAI (env : AIEnv) (text : String) (settings : Settings) :
    Except String String × List Event :=
  let evs := [Event.netRequest (endpointOpenai ++ "/chat/completions")]
  match env.openaiText with
  | .error err => (.error ("OpenAI Text Analysis failed: " ++ err), evs)
  | .ok content => (.ok content, evs)

/-- ai-service.js analyzeTextAnthropic. -/
def analyzeTextAnthropic (env : AIEnv) (text : String) (settings : Settings) :
    Except String String × List Event :=
  let evs := [Event.netRequest (endpointAnthropic ++ "/messages")]
  match env.anthropicText with
  | .error err => (.error ("Anthropic Text Analysis failed: " ++ err), evs)
  | .ok content => (.ok content, evs)

/-- ai-service.js analyzeTextGemini. -/
def analyzeTextGemini (env : AIEnv) (text : String) (settings : Settings) :
    Except String String × List Event :=
  let model := if settings.textModel = "" then "gemini-2.0-flash-exp"
    else settings.textModel
  let evs := [Event.netRequest (endpointGoogleGemini ++ "/models/" ++ model
    ++ ":generateContent?key=" ++ settings.geminiApiKey)]
  match env.geminiText with
  | .error err => (.error ("Gemini Text Analysis failed: " ++ err), evs)
  | .ok content =>
      (.ok (if content = "" then "No analysis generated" else content), evs)

/-- ai-service.js analyzeText: validate the credential, then dispatch
on the text provider. -/
def analyzeText (env : AIEnv) (text : String) (settings : Settings) :
    Except String String × List Event :=
  let ev0 := [Event.analyzeTextEv]
  match validateRequiredKey settings.textApiProvider settings with
  | .error m => (.error m, ev0)
  | .ok _ =>
      let p := settings.textApiProvider
      if p = "ollama" || p = "ollama-cloud" then
        let r := analyzeTextOllama env text settings
        (r.1, ev0 ++ r.2)
      else if p = "openai" then
        let r := analyzeTextOpenAI env text settings
        (r.1, ev0 ++ r.2)
      else if p = "anthropic" then
        let r := analyzeTextAnthropic env text settings
        (r.1, ev0 ++ r.2)
      else if p = "google-gemini" then
        let r := analyzeTextGemini env text settings
        (r.1, ev0 ++ r.2)
      else (.error ("Unknown text provider: " ++ p), ev0)

/-- ai-service.js askFollowUpOllama: health probe for the local server,
then a generate call carrying the synthesized conversation prompt. -/
def askFollowUpOllama (env : AIEnv) (question : String)
    (history : List (String × String)) (settings : Settings) :
    Except String String × List Event :=
  let baseUrl := getBaseUrl settings.textApiProvider
  let healthCheck : Except String Unit × List Event :=
    if settings.textApiProvider = "ollama" then
      match checkLocalHealth env with
      | (.error _, evs) =>
          (.error "Ollama is not running. Please start Ollama locally.", evs)
      | (.ok _, evs) => (.ok (), evs)
    else (.ok (), [])
  match healthCheck with
  | (.error m, evs0) => (.error m, evs0)
  | (.ok _, evs0) =>
      let evs := evs0 ++ [Event.netRequest (baseUrl ++ "/api/generate")]
      let fetched : Except String String :=
        match env.ollamaFollowGen with
        | .notOkResp status bodyText =>
            .error ("Follow-up analysis failed (" ++ toString status ++ "): " ++ bodyText)
        | .okResp r => .ok r
      let raced : Except String String :=
        if env.ollamaFollowTimedOut then .error "Follow-up analysis timeout (120s)"
        else fetched
      match raced with
      | .ok r => (.ok (if r = "" then "No response generated" else r), evs)
      | .error m => (.error m, evs)

/-- ai-service.js askFollowUpOpenAI. -/
def askFollowUpOpenAI (env : AIEnv) (question : String)
    (history : List (String × String)) (settings : Settings) :
    Except String String × List Event :=
  let evs := [Event.netRequest (endpointOpenai ++ "/chat/completions")]
  match env.openaiFollow with
  | .error err => (.error ("OpenAI Follow-up failed: " ++ err), evs)
  | .ok content => (.ok content, evs)

/-- ai-service.js askFollowUpAnthropic. -/
def askFollowUpAnthropic (env : AIEnv) (question : String)
    (history : List (String × String)) (settings : Settings) :
    Except String String × List Event :=
  let evs := [Event.netRequest (endpointAnthropic ++ "/messages")]
  match env.anthropicFollow with
  | .error err => (.error ("Anthropic Follow-up failed: " ++ err), evs)
  | .ok content => (.ok content, evs)

/-- ai-service.js askFollowUpGemini. -/
def askFollowUpGemini (env : AIEnv) (question : String)
    (history : List (String × String)) (settings : Settings) :
    Except String String × List Event :=
  let model := if settings.textModel = "" then "gemini-2.0-flash-exp"
    else settings.textModel
  let evs := [Event.netRequest (endpointGoogleGemini ++ "/models/" ++ model
    ++ ":generateContent?key=" ++ settings.geminiApiKey)]
  match env.geminiFollow with
  | .error err => (.error ("Gemini Follow-up failed: " ++ err), evs)
  | .ok content =>
      (.ok (if content = "" then "No response generated" else content), evs)

/-- ai-service.js askFollowUp: validate the credential, then dispatch
on the text provider. -/
def askFollowUp (env : AIEnv) (question : String)
    (history : List (String × String)) (settings : Settings) :
    Except String String × List Event :=
  let ev0 := [Event.askFollowUpEv]
  match validateRequiredKey settings.textApiProvider settings with
  | .error m => (.error m, ev0)
  | .ok _ =>
      let p := settings.textApiProvider
      if p = "ollama" || p = "ollama-cloud" then
        let r := askFollowUpOllama env question history settings
        (r.1, ev0 ++ r.2)
      else if p = "openai" then
        let r := askFollowUpOpenAI env question history settings
        (r.1, ev0 ++ r.2)
      else if p = "anthropic" then
        let r := askFollowUpAnthropic env question history settings
        (r.1, ev0 ++ r.2)
      else if p = "google-gemini" then
        let r := askFollowUpGemini env question history settings
        (r.1, ev0 ++ r.2)
      else (.error ("Unknown text provider: " ++ p), ev0)

end AIService

/-! ## Model listing and its in-memory cache (ai-service.js getModels) -/

/-- One selectable model: its id and display name. -/
structure ModelEntry where
  id : String
  name : String
  deriving DecidableEq, Repr

/-- The in-memory model cache of AIService: CACHE.models and
CACHE.expiry, keyed by the provider and credential. -/
structure ModelCache where
  models : List (String × List ModelEntry)
  expiry : List (String × Int)
  deriving DecidableEq, Repr

def emptyCache : ModelCache := ⟨[], []⟩

/-- Lookup in a string-keyed record. -/
def lookupAssoc {α : Type} (l : List (String × α)) (k : String) : Option α :=
  (l.find? (fun p => p.1 == k)).map Prod.snd

/-- The cache key of getModels: provider and credential (or no-key). -/
def cacheKeyOf (provider apiKey : String) : String :=
  provider ++ "-" ++ (if apiKey = "" then "no-key" else apiKey)

/-- Assignment in a string-keyed record. -/
def setAssoc {α : Type} : List (String × α) → String → α → List (String × α)
  | [], k, v => [(k, v)]
  | (k', v') :: rest, k, v =>
      if k' = k then (k, v) :: rest else (k', v') :: setAssoc rest k v

/-- JavaScript String.prototype.replace with a string pattern: replace
the first occurrence only. -/
def strReplaceFirst (s pat repl : String) : String :=
  match s.splitOn pat with
  | [] => s
  | [_] => s
  | a :: rest => a ++ repl ++ String.intercalate pat rest

namespace AIService

/-- ai-service.js getModels: serve an unexpired cache entry, otherwise
require a credential for the hosted providers, fetch and shape the
model list, and cache it for an hour.  Returns the result, the updated
cache, and the trace. -/
def getModels (env : AIEnv) (cache : ModelCache) (now : Int)
    (provider : String) (apiKey : String) :
    Except String (List ModelEntry) × ModelCache × List Event :=
  let cacheKey := cacheKeyOf provider apiKey
  let cachedValid : Option (List ModelEntry) :=
    match lookupAssoc cache.models cacheKey with
    | none => none
    | some ms =>
        match lookupAssoc cache.expiry cacheKey with
        | some exp => if now < exp then some ms else none
        | none => none
  match cachedValid with
  | some ms => (.ok ms, cache, [])
  | none =>
      if (provider = "openai" || provider = "anthropic" || provider = "google-gemini"
          || provider = "ollama-cloud") && apiKey = "" then
        (.error "API Key is required for this provider", cache, [])
      else
        let fetched : Except String (List ModelEntry) × List Event :=
          if provider = "ollama" || provider = "ollama-cloud" then
            let r := getLocalModels env
            (.ok (r.1.map (fun m => ⟨m, m⟩)), r.2)
          else if provider = "openai" then
            let evs := [Event.netRequest (endpointOpenai ++ "/models")]
            match env.openaiModels with
            | .error m => (.error m, evs)
            | .ok ids =>
                (.ok ((ids.filter (fun i => strIncludes i "gpt")).map
                  (fun i => ⟨i, i⟩)), evs)
          else if provider = "anthropic" then
            let evs := [Event.netRequest (endpointAnthropic ++ "/models")]
            match env.anthropicModels with
            | .error m => (.error m, evs)
            | .ok entries =>
                (.ok ((entries.filter (fun e => strIncludes e.1 "claude")).map
                  (fun e => ⟨e.1, e.2.getD e.1⟩)), evs)
          else if provider = "google-gemini" then
            let evs := [Event.netRequest (endpointGoogleGemini ++ "/models?key=" ++ apiKey)]
            match env.geminiModels with
            | .error m => (.error m, evs)
            | .ok entries =>
                (.ok ((entries.filter (fun e => strIncludes e.1 "gemini")).map
                  (fun e =>
                    let id := strReplaceFirst e.1 "models/" ""
                    ⟨id, e.2.getD id⟩)), evs)
          else (.ok [], [])
        match fetched with
        | (.error m, evs) => (.error m, cache, evs)
        | (.ok models, evs) =>
            let cache' : ModelCache :=
              ⟨setAssoc cache.models cacheKey models,
               setAssoc cache.expiry cacheKey (now + 3600000)⟩
            (.ok models, cache', evs)

end AIService

/-! ## Background orchestrator (background.js) -/

/-- The fields of a chrome tab the orchestrator reads. -/
structure TabInfo where
  url : Option String
  deriving DecidableEq, Repr

/-- Result of the area selector initialization round trip: the object
returned by the injected probe (success, an optional error message,
and overlay readiness). -/
structure InitResult where
  success : Bool
  errMsg : Option String
  ready : Bool
  deriving DecidableEq, Repr

/-- Page metrics read by the full-page capture scripts.  The model is
meaningful for a positive viewport height, as in a real page. -/
structure PageInfo where
  height : Int := 0
  viewport : Int := 1
  width : Int := 0
  originalScrollX : Int := 0
  originalScrollY : Int := 0
  deriving DecidableEq, Repr

/-- Browser-side effects for the orchestrator, one field per awaited
browser call.  cancelBeforeText and cancelBeforeComplete model an
external writer performing CaptureQueue.cancel during the suspension
right before the corresponding cooperative cancellation checkpoint. -/
structure Env where
  ai : AIService.AIEnv := {}
  activeTab : Option Int := none
  tabGet : Int → Except String TabInfo := fun _ => .ok ⟨none⟩
  visibleCapture : Except String String := .ok ""
  pageInfo : PageInfo := {}
  shotResp : Nat → Nat → Except String String := fun _ _ => .ok ""
  stitched : String := ""
  insertCssOk : Except String Unit := .ok ()
  selectorScriptOk : Except String Unit := .ok ()
  initResult : Except String (Option InitResult) := .ok none
  cancelBeforeText : Bool := false
  cancelBeforeComplete : Bool := false

/-- The background worker state: the store, the in-memory busy flag,
and a clock supplying Date.now values for updatedAt stamps. -/
structure RunState where
  store : Store
  pollingActive : Bool
  time : Int
  deriving Repr

/-- A CaptureQueue.updateState call of the pipeline, recording the new
state in the trace and advancing the clock. -/
def updateStateE (rs : RunState) (upd : JsObj) : RunState × List Event :=
  let st' := CaptureQueue.updateState rs.store upd rs.time
  ({ rs with store := st', time := rs.time + 1 },
   [Event.stateWrite (st'.currentCapture.getD [])])

/-- Apply the external cancel write modelled by a checkpoint flag.
The write belongs to another context, so it is not part of the trace
of the modelled run. -/
def externalCancel (flag : Bool) (rs : RunState) : RunState :=
  if flag then
    { rs with store := CaptureQueue.cancel rs.store rs.time, time := rs.time + 1 }
  else rs

/-- Whether the stored capture state has the given status. -/
def stateStatusIs (st : Store) (v : String) : Bool :=
  match CaptureQueue.getState st with
  | some s => decide (getField s "status" = some (.str v))
  | none => false

/-- The segment after the first comma, up to the next comma: the
second element of a JavaScript split at commas. -/
def segAfterComma : List Char → Option (List Char)
  | [] => none
  | c :: rest =>
      if c = ',' then some (rest.takeWhile (fun d => d ≠ ',')) else segAfterComma rest

/-- The dataUrl.split(comma)[1] step of processCapturedImage. -/
def extractBase64 (dataUrl : String) : Option String :=
  (segAfterComma dataUrl.toList).map (fun l => ⟨l⟩)

/-- background.js captureWithRetry delay policy: a small fixed delay
before the first attempt when retries are allowed, and a growing
backoff delay before each retry. -/
def captureAttemptDelay (maxRetries attempt : Nat) : List Event :=
  if attempt > 0 then [Event.delayMs (600 * (attempt + 1))]
  else if maxRetries > 0 then [Event.delayMs 600] else []

/-- One attempt of background.js captureWithRetry and its retry
continuation.  The fuel argument makes the recursion structural; it is
maintained at maxRetries - attempt, so the zero-fuel case inside the
retry branch (which requires attempt < maxRetries, hence positive
fuel) is unreachable. -/
def captureRetrySteps (outcome : Nat → Except String String) (maxRetries : Nat) :
    Nat → Nat → Except String String × List Event
  | attempt, fuel =>
      let evs := captureAttemptDelay maxRetries attempt ++ [Event.shotAttempt]
      match outcome attempt with
      | .ok dataUrl => (.ok dataUrl, evs)
      | .error e =>
          if (e ≠ "" ∧ strIncludes e "MAX_CAPTURE_VISIBLE_TAB_CALLS_PER_SECOND" = true)
              ∧ attempt < maxRetries then
            match fuel with
            | 0 => (.error e, evs)
            | fuel' + 1 =>
                let r := captureRetrySteps outcome maxRetries (attempt + 1) fuel'
                (r.1, evs ++ r.2)
          else (.error e, evs)

/-- background.js captureWithRetry from a given attempt index: delay,
invoke the capture primitive, retry on a rate-limit message while
attempts remain, and propagate any other failure immediately. -/
def captureWithRetryFrom (outcome : Nat → Except String String)
    (maxRetries attempt : Nat) : Except String String × List Event :=
  captureRetrySteps outcome maxRetries attempt (maxRetries - attempt)

/-- background.js captureWithRetry (attempts start at zero). -/
def captureWithRetry (outcome : Nat → Except String String) (maxRetries : Nat) :
    Except String String × List Event :=
  captureWithRetryFrom outcome maxRetries 0

/-- Math.ceil(height / viewport) shots, for a positive viewport. -/
def numShots (height viewport : Int) : Nat :=
  ((height + viewport - 1) / viewport).toNat

/-- The shot loop of background.js captureFullPage: scroll to the
unclamped offset i * viewport, wait, capture with retry; a capture
failure aborts the loop. -/
def bgShotLoop (env : Env) (viewport : Int) (n : Nat) :
    Except String (List (String × Int)) × List Event :=
  (List.range n).foldl
    (fun acc (i : Nat) =>
      match acc with
      | (.error e, evs) => (.error e, evs)
      | (.ok caps, evs) =>
          let y := (i : Int) * viewport
          let r := captureWithRetry (env.shotResp i) 3
          match r.1 with
          | .ok dataUrl =>
              (.ok (caps ++ [(dataUrl, y)]),
               evs ++ [Event.scrollTo 0 y, Event.delayMs 30] ++ r.2)
          | .error e =>
              (.error e, evs ++ [Event.scrollTo 0 y, Event.delayMs 30] ++ r.2))
    (.ok [], [])

/-- background.js captureFullPage: read the page metrics, take the
shots, restore the original scroll position, and stitch (the stitched
canvas content is supplied by the environment). -/
def captureFullPage (env : Env) : Except String String × List Event :=
  let p := env.pageInfo
  let n := numShots p.height p.viewport
  match bgShotLoop env p.viewport n with
  | (.error e, evs) => (.error e, evs)
  | (.ok _, evs) =>
      (.ok env.stitched,
       evs ++ [Event.restoreScroll p.originalScrollX p.originalScrollY])

/-- background.js formatResult combines the markdown renderings of the
two analysis parts; the result is modelled structurally as the pair of
parts (see JsVal.res). -/
def formatResult (description analysis : String) : JsVal :=
  .res description analysis

/-- background.js analyzeScreenshot: require configured providers, run
the vision step (fatal on failure, message wrapped), sanitize, check
the cancellation checkpoint before text analysis, run the text step
(non-fatal on failure, replaced by an analysis-unavailable note), and
combine with formatResult. -/
def analyzeScreenshot (env : Env) (base64Image : String) (settings : Settings)
    (rs : RunState) : Except String JsVal × RunState × List Event :=
  if settings.visionApiProvider = "" || settings.textApiProvider = "" then
    (.error "API providers not configured.", rs, [])
  else
    match AIService.describeImage env.ai base64Image settings with
    | (.error m, evs) => (.error ("Vision analysis failed: " ++ m), rs, evs)
    | (.ok imageDescription0, evs) =>
        let imageDescription := sanitizeSensitiveData imageDescription0
        let rs1 := externalCancel env.cancelBeforeText rs
        if stateStatusIs rs1.store "cancelled" then
          (.error "Capture cancelled", rs1, evs)
        else
          match AIService.analyzeText env.ai imageDescription settings with
          | (.error m, evs2) =>
              (.ok (formatResult imageDescription ("Analysis unavailable: " ++ m)),
               rs1, evs ++ evs2)
          | (.ok deepAnalysis0, evs2) =>
              (.ok (formatResult imageDescription (sanitizeSensitiveData deepAnalysis0)),
               rs1, evs ++ evs2)

/-- background.js processCapturedImage: write analyzing, validate the
image data, run the analysis, honor the cancellation checkpoint before
writing complete, and translate any thrown error into an error state
write.  Progress-indicator and result messages to the page are
fire-and-forget UI traffic and are not modelled. -/
def processCapturedImage (env : Env) (dataUrl : String) (rs : RunState) :
    RunState × List Event :=
  let step1 := updateStateE rs [("status", .str "analyzing")]
  let rs1 := step1.1
  let e1 := step1.2
  let settings := CaptureQueue.getSettings rs1.store
  let step : Except String JsVal × RunState × List Event :=
    match extractBase64 dataUrl with
    | some base64Image =>
        if base64Image = "" then (.error "Invalid image data", rs1, [])
        else analyzeScreenshot env base64Image settings rs1
    | none => (.error "Invalid image data", rs1, [])
  match step with
  | (.ok result, rs2, evs) =>
      let rs3 := externalCancel env.cancelBeforeComplete rs2
      if stateStatusIs rs3.store "cancelled" then (rs3, e1 ++ evs)
      else
        let step4 := updateStateE rs3 [("status", .str "complete"), ("result", result)]
        (step4.1, e1 ++ evs ++ step4.2)
  | (.error m, rs2, evs) =>
      let step4 := updateStateE rs2 [("status", .str "error"), ("error", .str m)]
      (step4.1, e1 ++ evs ++ step4.2)

/-- background.js startAreaSelection: validate the tab and its url,
inject the selector resources, probe overlay readiness, record the
capture tab marker, and write selecting; on any failure translate the
message to a user-facing sentence and write error.  All failures are
caught inside this function. -/
def startAreaSelection (env : Env) (tabId : Int) (rs : RunState) :
    RunState × List Event :=
  let evs0 := [Event.areaSelectStart]
  let tryResult : Except String Unit :=
    match env.tabGet tabId with
    | .error _ => .error "Tab was closed. Please try again."
    | .ok tab =>
        if isRestrictedUrl tab.url then
          .error "Cannot capture screenshots on this page (Restricted URL)."
        else
          match env.insertCssOk with
          | .error m => .error m
          | .ok _ =>
              match env.selectorScriptOk with
              | .error m => .error m
              | .ok _ =>
                  match env.initResult with
                  | .error m => .error m
                  | .ok none => .error "Failed to initialize area selector"
                  | .ok (some r) =>
                      if !r.success then
                        .error (match r.errMsg with
                          | some e =>
                              if e = "" then "Failed to initialize area selector" else e
                          | none => "Failed to initialize area selector")
                      else if !r.ready then .error "Area selector overlay is not ready"
                      else .ok ()
  match tryResult with
  | .ok _ =>
      let rs1 := { rs with store := { rs.store with activeCaptureTabId := some tabId } }
      let step2 := updateStateE rs1 [("status", .str "selecting"), ("tabId", .num tabId)]
      (step2.1, evs0 ++ [Event.delayMs 500] ++ step2.2)
  | .error msg0 =>
      let msg :=
        if strIncludes msg0 "invalidated" then
          "Extension was reloaded. Please refresh this page to continue."
        else if strIncludes msg0 "Cannot access" then
          "Cannot access this page. Please try a different page."
        else if strIncludes msg0 "Tab was closed" then
          "The tab was closed. Please try again."
        else msg0
      let step2 := updateStateE rs [("status", .str "error"), ("error", .str msg)]
      (step2.1, evs0 ++ step2.2)

/-- The truthy numeric field read by the tabId destructuring: absent,
null, undefined, non-numeric and zero values are falsy. -/
def intFieldTruthy (o : JsObj) (k : String) : Option Int :=
  match getField o k with
  | some (.num n) => if n = 0 then none else some n
  | _ => none

/-- The url property as read by isRestrictedUrl: a missing or
non-string value behaves like an absent url. -/
def strField (o : JsObj) (k : String) : Option String :=
  match getField o k with
  | some (.str s) => some s
  | _ => none

/-- background.js processQueuedRequest: guarded by the busy flag,
dequeue, resolve the target tab (falling back to the active tab),
reject restricted urls, write capturing, dispatch on the mode, turn
any thrown error into an error state write, and in every case clear
the busy flag and the request key (the finally block). -/
def processQueuedRequest (env : Env) (rs : RunState) : RunState × List Event :=
  if rs.pollingActive then (rs, [])
  else
    let deq := CaptureQueue.dequeue rs.store
    let rs0 := { rs with store := deq.2 }
    match deq.1 with
    | none =>
        ({ rs0 with pollingActive := false, store := CaptureQueue.clear rs0.store }, [])
    | some request =>
        let rsB := { rs0 with pollingActive := true }
        let mode := getField request "mode"
        let url := strField request "url"
        let tabId :=
          match intFieldTruthy request "tabId" with
          | some t => some t
          | none => env.activeTab
        let body : RunState × List Event :=
          match tabId with
          | none =>
              updateStateE rsB [("status", .str "error"),
                ("error", .str "Target tab could not be identified.")]
          | some tid =>
              if isRestrictedUrl url then
                updateStateE rsB [("status", .str "error"),
                  ("error", .str "Cannot capture screenshots on this page (Restricted URL).")]
              else
                let step1 := updateStateE rsB
                  [("status", .str "capturing"), ("mode", mode.getD .undef),
                   ("tabId", .num tid), ("error", .null), ("result", .null)]
                let rs1 := step1.1
                let e1 := step1.2
                if mode = some (.str "visible") then
                  match env.tabGet tid with
                  | .error m =>
                      let step2 := updateStateE rs1
                        [("status", .str "error"), ("error", .str m)]
                      (step2.1, e1 ++ step2.2)
                  | .ok _ =>
                      match env.visibleCapture with
                      | .error m =>
                          let step2 := updateStateE rs1
                            [("status", .str "error"), ("error", .str m)]
                          (step2.1, e1 ++ [Event.shotAttempt] ++ step2.2)
                      | .ok dataUrl =>
                          let step2 := processCapturedImage env dataUrl rs1
                          (step2.1, e1 ++ [Event.shotAttempt] ++ step2.2)
                else if mode = some (.str "full") then
                  match env.tabGet tid with
                  | .error m =>
                      let step2 := updateStateE rs1
                        [("status", .str "error"), ("error", .str m)]
                      (step2.1, e1 ++ step2.2)
                  | .ok _ =>
                      match captureFullPage env with
                      | (.error m, evsC) =>
                          let step2 := updateStateE rs1
                            [("status", .str "error"), ("error", .str m)]
                          (step2.1, e1 ++ evsC ++ step2.2)
                      | (.ok dataUrl, evsC) =>
                          let step2 := processCapturedImage env dataUrl rs1
                          (step2.1, e1 ++ evsC ++ step2.2)
                else if mode = some (.str "area") then
                  let step2 := startAreaSelection env tid rs1
                  (step2.1, e1 ++ step2.2)
                else (rs1, e1)
        let rsF := body.1
        ({ rsF with pollingActive := false, store := CaptureQueue.clear rsF.store },
         body.2)

/-! ## Popup full-page capture (the popup source file) -/

namespace Popup

/-- Browser effects for the popup captureFullPage. -/
structure PopupEnv where
  pageInfo : PageInfo := {}
  shotResp : Nat → Except String String := fun _ => .ok ""
  stitched : String := ""

/-- The shot loop of the popup captureFullPage: the scroll offset is
Math.min(i * viewportHeight, scrollHeight - viewportHeight); each shot
is a direct captureVisibleTab call (no retry helper here). -/
def shotLoop (env : PopupEnv) (scrollHeight viewportHeight : Int) (n : Nat) :
    Except String (List (String × Int)) × List Event :=
  (List.range n).foldl
    (fun acc (i : Nat) =>
      match acc with
      | (.error e, evs) => (.error e, evs)
      | (.ok caps, evs) =>
          let scrollY := min ((i : Int) * viewportHeight)
            (scrollHeight - viewportHeight)
          match env.shotResp i with
          | .ok dataUrl =>
              (.ok (caps ++ [(dataUrl, scrollY)]),
               evs ++ [Event.scrollTo 0 scrollY, Event.delayMs 30, Event.shotAttempt])
          | .error e =>
              (.error e,
               evs ++ [Event.scrollTo 0 scrollY, Event.delayMs 30, Event.shotAttempt]))
    (.ok [], [])

/-- Popup captureFullPage: read the page metrics, take the clamped
shots, restore the scroll position and stitch (the stitched image,
already split to its base64 payload, is supplied by the
environment). -/
def captureFullPage (env : PopupEnv) : Except String String × List Event :=
  let p := env.pageInfo
  let n := numShots p.height p.viewport
  match shotLoop env p.height p.viewport n with
  | (.error e, evs) => (.error e, evs)
  | (.ok _, evs) =>
      (.ok env.stitched,
       evs ++ [Event.restoreScroll p.originalScrollX p.originalScrollY])

end Popup

/-! ## Invariant predicates over capture states and traces -/

/-- Whether a field is absent in the sense of the specification: the
key is missing, or holds null or undefined. -/
def fieldAbsent (s : JsObj) (k : String) : Bool :=
  match getField s k with
  | none => true
  | some .null => true
  | some .undef => true
  | some _ => false

/-- Whether the state object has the given status string. -/
def hasStatus (s : JsObj) (v : String) : Bool :=
  decide (getField s "status" = some (.str v))

/-- The result and error exclusivity invariant: in a complete or error
state exactly one of result and error is present; in the non-terminal
capturing, selecting, processing and analyzing states both are
absent. -/
def exclusiveOkB (s : JsObj) : Bool :=
  (if hasStatus s "complete" || hasStatus s "error" then
    fieldAbsent s "result" != fieldAbsent s "error"
  else true) &&
  (if hasStatus s "capturing" || hasStatus s "selecting" || hasStatus s "processing"
      || hasStatus s "analyzing" then
    fieldAbsent s "result" && fieldAbsent s "error"
  else true)

/-- The capture states written by a trace. -/
def writtenStates (tr : List Event) : List JsObj :=
  tr.filterMap (fun e => match e with | .stateWrite s => some s | _ => none)

/-- The network request events of a trace. -/
def netRequests (tr : List Event) : List Event :=
  tr.filter (fun e => match e with | .netRequest _ => true | _ => false)

/-- A trace consisting of network requests only. -/
def allNet (tr : List Event) : Bool :=
  tr.all (fun e => match e with | .netRequest _ => true | _ => false)

/-- Both result and error absent in the optional stored state. -/
def bothAbsent (o : Option JsObj) : Bool :=
  match o with
  | none => true
  | some s => fieldAbsent s "result" && fieldAbsent s "error"

/-- The stored state, if any, satisfies the exclusivity invariant. -/
def stateOkB (o : Option JsObj) : Bool :=
  match o with
  | none => true
  | some s => exclusiveOkB s
/-- The providers for which validateRequiredKey demands a credential. -/
def requiresKey (provider : String) : Bool :=
  provider = "openai" || provider = "anthropic" || provider = "google-gemini"
    || provider = "ollama-cloud" || provider = "google-vision"

/-- The credential validateRequiredKey checks for a provider. -/
def credentialOf (provider : String) (s : Settings) : String :=
  if provider = "openai" then s.openaiApiKey
  else if provider = "anthropic" then s.anthropicApiKey
  else if provider = "google-gemini" then s.geminiApiKey
  else if provider = "ollama-cloud" then s.ollamaApiKey
  else if provider = "google-vision" then s.googleApiKey
  else ""

/-- The named missing-credential message of validateRequiredKey. -/
def missingCredentialMsg (provider : String) : String :=
  if provider = "openai" then "OpenAI API Key is required"
  else if provider = "anthropic" then "Anthropic API Key is required"
  else if provider = "google-gemini" then "Gemini API Key is required"
  else if provider = "ollama-cloud" then "Ollama Cloud API Key is required"
  else if provider = "google-vision" then "Google Cloud Vision API Key is required"
  else ""

/-- No unexpired cache entry under the key (the negation of the cache
validity test of getModels). -/
def cacheMiss (cache : ModelCache) (key : String) (now : Int) : Bool :=
  match lookupAssoc cache.models key with
  | none => true
  | some _ =>
      match lookupAssoc cache.expiry key with
      | some exp => decide (¬ (now < exp))
      | none => true

@[simp] theorem getField_nil (k : String) : getField [] k = none := rfl

theorem getField_setField (o : JsObj) (k k' : String) (v : JsVal) :
    getField (setField o k v) k' = if k = k' then some v else getField o k' := by
  induction o with
  | nil => simp [setField, getField]
  | cons p rest ih =>
    obtain ⟨k0, v0⟩ := p
    by_cases h0 : k0 = k
    · subst h0
      simp only [setField, if_pos rfl, getField]
      by_cases h1 : k0 = k'
      · subst h1; simp [getField]
      · simp [getField, h1]
    · simp only [setField, if_neg h0, getField]
      by_cases h1 : k0 = k'
      · subst h1
        have : ¬ k = k0 := fun h => h0 h.symm
        simp [this]
      · simp [h1, ih]

@[simp] theorem getField_setField_self (o : JsObj) (k : String) (v : JsVal) :
    getField (setField o k v) k = some v := by
  simp [getField_setField]

theorem getField_setField_ne (o : JsObj) {k k' : String} (v : JsVal) (h : k ≠ k') :
    getField (setField o k v) k' = getField o k' := by
  simp [getField_setField, h]

/-- The keys named by an update object. -/
def keysOf (o : JsObj) : List String := o.map Prod.fst

theorem spread_cons (base : JsObj) (p : String × JsVal) (rest : JsObj) :
    spread base (p :: rest) = spread (setField base p.1 p.2) rest := rfl

@[simp] theorem spread_nil (base : JsObj) : spread base [] = base := rfl

/-- A key not named by the update keeps the value it has in the base. -/
theorem getField_spread_not_mem (base : JsObj) (upd : JsObj) (k : String)
    (h : k ∉ keysOf upd) : getField (spread base upd) k = getField base k := by
  induction upd generalizing base with
  | nil => simp
  | cons p rest ih =>
    obtain ⟨k0, v0⟩ := p
    simp only [keysOf, List.map_cons, List.mem_cons] at h
    push_neg at h
    rw [spread_cons]
    rw [ih _ (by simpa [keysOf] using h.2)]
    exact getField_setField_ne _ _ (fun he => h.1 he.symm)

/-- A key named by a duplicate-free update takes the updated value. -/
theorem getField_spread_mem (base : JsObj) (upd : JsObj) (k : String) (v : JsVal)
    (hnd : (keysOf upd).Nodup) (h : (k, v) ∈ upd) :
    getField (spread base upd) k = some v := by
  induction upd generalizing base with
  | nil => simp at h
  | cons p rest ih =>
    obtain ⟨k0, v0⟩ := p
    simp only [keysOf, List.map_cons, List.nodup_cons] at hnd
    rcases List.mem_cons.mp h with h0 | h0
    · cases h0
      rw [spread_cons]
      have hk0 : k ∉ keysOf rest := by simpa [keysOf] using hnd.1
      rw [getField_spread_not_mem _ _ _ hk0]
      simp
    · rw [spread_cons]
      exact ih _ hnd.2 h0

/-! ## C1: atomicity of dequeue -/

/-- C1: for every store in which the captureRequest entry holds a
request with status pending, dequeue flips the status to processing,
writes the request back, and returns it; for every store in which the
entry is absent or the status is not pending, dequeue returns none and
leaves the store unchanged; and after a single enqueue, two dequeues
in succession yield the request exactly once, the second yields
none. -/
theorem C1_dequeue_atomic_claim (st : Store) :
    (∀ r, st.captureRequest = some r →
      (getField r "status" = some (.str "pending") →
        CaptureQueue.dequeue st =
          (some (setField r "status" (.str "processing")),
           { st with captureRequest := some (setField r "status" (.str "processing")) }))
      ∧ (getField r "status" ≠ some (.str "pending") →
        CaptureQueue.dequeue st = (none, st)))
    ∧ (st.captureRequest = none → CaptureQueue.dequeue st = (none, st))
    ∧ (∀ base idStr now,
        ((CaptureQueue.dequeue ((CaptureQueue.enqueue st base idStr now).2)).1).isSome
        ∧ (CaptureQueue.dequeue
            ((CaptureQueue.dequeue ((CaptureQueue.enqueue st base idStr now).2)).2)).1
          = none) := by
  refine ⟨?_, ?_, ?_⟩
  · intro r hr
    constructor
    · intro hp
      simp [CaptureQueue.dequeue, hr, hp]
    · intro hp
      simp [CaptureQueue.dequeue, hr, hp]
  · intro h
    simp [CaptureQueue.dequeue, h]
  · intro base idStr now
    constructor
    · simp [CaptureQueue.enqueue, CaptureQueue.dequeue]
    · simp [CaptureQueue.enqueue, CaptureQueue.dequeue]

/-- C1 witness: the theorem applied at a concrete pending request. -/
theorem C1_dequeue_atomic_claim_witness :
    CaptureQueue.dequeue ⟨some [("status", JsVal.str "pending")], none, none, defaultSettings⟩
      = (some (setField [("status", JsVal.str "pending")] "status" (.str "processing")),
         ⟨some (setField [("status", JsVal.str "pending")] "status" (.str "processing")),
          none, none, defaultSettings⟩) :=
  ((C1_dequeue_atomic_claim _).1 _ rfl).1 (by decide)

/-! ## C2: updateState is a shallow merge -/

/-- C2: updateState overlays the partial update on the prior state and
stamps a fresh updatedAt: a field not named by the update (other than
updatedAt) is unchanged, a field named by the update takes the updated
value, updatedAt takes the fresh timestamp; and updating with a:1 then
b:2 yields a state containing both a:1 and b:2. -/
theorem C2_updateState_shallow_merge (st : Store) (upd : JsObj) (now : Int) :
    (∀ k, k ≠ "updatedAt" → k ∉ keysOf upd →
      getField ((CaptureQueue.updateState st upd now).currentCapture.getD []) k
        = getField (st.currentCapture.getD []) k)
    ∧ (∀ k v, k ≠ "updatedAt" → (keysOf upd).Nodup → (k, v) ∈ upd →
      getField ((CaptureQueue.updateState st upd now).currentCapture.getD []) k
        = some v)
    ∧ getField ((CaptureQueue.updateState st upd now).currentCapture.getD [])
        "updatedAt" = some (.num now)
    ∧ (∀ t2,
      getField ((CaptureQueue.updateState
          (CaptureQueue.updateState st [("a", .num 1)] now)
          [("b", .num 2)] t2).currentCapture.getD []) "a" = some (.num 1)
      ∧ getField ((CaptureQueue.updateState
          (CaptureQueue.updateState st [("a", .num 1)] now)
          [("b", .num 2)] t2).currentCapture.getD []) "b" = some (.num 2)) := by
  refine ⟨?_, ?_, ?_, ?_⟩
  · intro k hk hmem
    simp only [CaptureQueue.updateState, Option.getD_some]
    rw [getField_setField_ne _ _ (fun h => hk h.symm)]
    exact getField_spread_not_mem _ _ _ hmem
  · intro k v hk hnd hmem
    simp only [CaptureQueue.updateState, Option.getD_some]
    rw [getField_setField_ne _ _ (fun h => hk h.symm)]
    exact getField_spread_mem _ _ _ _ hnd hmem
  · simp [CaptureQueue.updateState]
  · intro t2
    constructor
    · simp only [CaptureQueue.updateState, Option.getD_some]
      rw [getField_setField_ne _ _ (by decide)]
      rw [show spread (setField (spread (st.currentCapture.getD []) [("a", JsVal.num 1)])
        "updatedAt" (.num now)) [("b", JsVal.num 2)]
        = setField (setField (spread (st.currentCapture.getD []) [("a", JsVal.num 1)])
          "updatedAt" (.num now)) "b" (JsVal.num 2) from rfl]
      rw [getField_setField_ne _ _ (by decide), getField_setField_ne _ _ (by decide)]
      rw [show spread (st.currentCapture.getD []) [("a", JsVal.num 1)]
        = setField (st.currentCapture.getD []) "a" (JsVal.num 1) from rfl]
      simp
    · simp only [CaptureQueue.updateState, Option.getD_some]
      rw [getField_setField_ne _ _ (by decide)]
      rw [show spread (setField (spread (st.currentCapture.getD []) [("a", JsVal.num 1)])
        "updatedAt" (.num now)) [("b", JsVal.num 2)]
        = setField (setField (spread (st.currentCapture.getD []) [("a", JsVal.num 1)])
          "updatedAt" (.num now)) "b" (JsVal.num 2) from rfl]
      simp

/-- C2 witness: the theorem applied at a concrete store and update. -/
theorem C2_updateState_shallow_merge_witness :
    getField ((CaptureQueue.updateState
        ⟨none, some [("mode", JsVal.str "visible")], none, defaultSettings⟩
        [("status", JsVal.str "analyzing")] 5).currentCapture.getD []) "mode"
      = some (JsVal.str "visible")
    ∧ getField ((CaptureQueue.updateState
        ⟨none, some [("mode", JsVal.str "visible")], none, defaultSettings⟩
        [("status", JsVal.str "analyzing")] 5).currentCapture.getD []) "status"
      = some (JsVal.str "analyzing")
    ∧ getField ((CaptureQueue.updateState
        ⟨none, some [("mode", JsVal.str "visible")], none, defaultSettings⟩
        [("status", JsVal.str "analyzing")] 5).currentCapture.getD []) "updatedAt"
      = some (JsVal.num 5) := by
  refine ⟨?_, ?_, ?_⟩
  · exact (C2_updateState_shallow_merge _ _ _).1 "mode" (by decide) (by decide)
      |>.trans (by decide)
  · exact (C2_updateState_shallow_merge _ _ _).2.1 "status" (JsVal.str "analyzing")
      (by decide) (by decide) (by decide)
  · exact (C2_updateState_shallow_merge _ _ _).2.2.1

/-! ## C10: cancel followed by reset hides the cancelled state -/

/-- C10: handling an external cancelCapture message first writes the
cancelled status through cancel and then immediately resets, deleting
both the captureRequest and currentCapture entries; afterwards
getState returns none, so a consumer polling only after the handler
finishes never observes the cancelled terminal status. -/
theorem C10_cancel_then_reset_hides_cancelled (st : Store) (now : Int) :
    (∃ s, CaptureQueue.getState (CaptureQueue.cancel st now) = some s
       ∧ getField s "status" = some (.str "cancelled"))
    ∧ handleCancelCapture st now
       = { st with captureRequest := none, currentCapture := none }
    ∧ CaptureQueue.getState (handleCancelCapture st now) = none := by
  refine ⟨⟨_, rfl, ?_⟩, rfl, rfl⟩
  show getField (setField (spread (st.currentCapture.getD [])
    [("status", JsVal.str "cancelled")]) "updatedAt" (.num now)) "status"
    = some (.str "cancelled")
  rw [getField_setField_ne _ _ (by decide)]
  rw [show spread (st.currentCapture.getD []) [("status", JsVal.str "cancelled")]
    = setField (st.currentCapture.getD []) "status" (JsVal.str "cancelled") from rfl]
  simp

/-! ## C8: retry policy of captureWithRetry -/

theorem captureAttemptDelay_no_shot (m a : Nat) :
    List.count Event.shotAttempt (captureAttemptDelay m a) = 0 := by
  unfold captureAttemptDelay
  split
  · simp
  · split <;> simp

theorem captureWithRetryFrom_step (outcome : Nat → Except String String) (m a : Nat) :
    captureWithRetryFrom outcome m a =
      match outcome a with
      | .ok dataUrl => (.ok dataUrl, captureAttemptDelay m a ++ [Event.shotAttempt])
      | .error e =>
          if (e ≠ "" ∧ strIncludes e "MAX_CAPTURE_VISIBLE_TAB_CALLS_PER_SECOND" = true)
              ∧ a < m then
            ((captureWithRetryFrom outcome m (a + 1)).1,
             (captureAttemptDelay m a ++ [Event.shotAttempt])
               ++ (captureWithRetryFrom outcome m (a + 1)).2)
          else (.error e, captureAttemptDelay m a ++ [Event.shotAttempt]) := by
  unfold captureWithRetryFrom
  conv_lhs => unfold captureRetrySteps
  cases houtcome : outcome a with
  | ok d => simp [houtcome]
  | error e =>
      simp only [houtcome]
      by_cases hc : (e ≠ "" ∧ strIncludes e "MAX_CAPTURE_VISIBLE_TAB_CALLS_PER_SECOND" = true)
          ∧ a < m
      · rw [if_pos hc, if_pos hc]
        have hfuel : m - a = (m - (a + 1)) + 1 := by omega
        rw [hfuel]
      · rw [if_neg hc, if_neg hc]

theorem captureRetry_exhaust (outcome : Nat → Except String String)
    (maxRetries : Nat) (err : Nat → String)
    (hfail : ∀ i, i ≤ maxRetries → outcome i = .error (err i))
    (hrl : ∀ i, i ≤ maxRetries → err i ≠ "" ∧
      strIncludes (err i) "MAX_CAPTURE_VISIBLE_TAB_CALLS_PER_SECOND" = true) :
    ∀ n a, maxRetries - a = n → a ≤ maxRetries →
      (captureWithRetryFrom outcome maxRetries a).1 = .error (err maxRetries)
      ∧ List.count Event.shotAttempt (captureWithRetryFrom outcome maxRetries a).2
        = maxRetries - a + 1 := by
  intro n
  induction n with
  | zero =>
    intro a hn ha
    have haeq : a = maxRetries := by omega
    subst haeq
    rw [captureWithRetryFrom_step, hfail _ le_rfl]
    simp only
    rw [if_neg (by intro hcon; exact absurd hcon.2 (by omega))]
    refine ⟨rfl, ?_⟩
    simp [List.count_append, captureAttemptDelay_no_shot]
  | succ n ih =>
    intro a hn ha
    have halt : a < maxRetries := by omega
    obtain ⟨ih1, ih2⟩ := ih (a + 1) (by omega) (by omega)
    rw [captureWithRetryFrom_step, hfail _ ha]
    simp only
    rw [if_pos ⟨hrl _ ha, halt⟩]
    refine ⟨ih1, ?_⟩
    simp only [List.count_append, captureAttemptDelay_no_shot, ih2]
    simp
    omega

/-- C8: in captureWithRetry, a failure whose message signals the
rate-limit condition is retried with a strictly larger backoff delay
while attempts remain, and is surfaced only when the bounded attempt
budget (maxRetries + 1 attempts) is exhausted, as the last failure;
any failure not signalling the rate-limit condition is propagated
immediately, after exactly that one attempt. -/
theorem C8_capture_retry_policy (outcome : Nat → Except String String)
    (maxRetries : Nat) :
    (∀ attempt e, outcome attempt = .error e →
      ¬(e ≠ "" ∧ strIncludes e "MAX_CAPTURE_VISIBLE_TAB_CALLS_PER_SECOND" = true) →
      captureWithRetryFrom outcome maxRetries attempt
        = (.error e, captureAttemptDelay maxRetries attempt ++ [Event.shotAttempt]))
    ∧ (∀ attempt e, outcome attempt = .error e →
      e ≠ "" → strIncludes e "MAX_CAPTURE_VISIBLE_TAB_CALLS_PER_SECOND" = true →
      attempt < maxRetries →
      captureWithRetryFrom outcome maxRetries attempt
        = ((captureWithRetryFrom outcome maxRetries (attempt + 1)).1,
           (captureAttemptDelay maxRetries attempt ++ [Event.shotAttempt])
             ++ (captureWithRetryFrom outcome maxRetries (attempt + 1)).2)
      ∧ captureAttemptDelay maxRetries (attempt + 1)
          = [Event.delayMs (600 * (attempt + 2))]
      ∧ (∀ d d2, captureAttemptDelay maxRetries attempt = [Event.delayMs d] →
          captureAttemptDelay maxRetries (attempt + 1) = [Event.delayMs d2] →
          d < d2))
    ∧ (∀ err : Nat → String,
      (∀ i, i ≤ maxRetries → outcome i = .error (err i)) →
      (∀ i, i ≤ maxRetries → err i ≠ "" ∧
        strIncludes (err i) "MAX_CAPTURE_VISIBLE_TAB_CALLS_PER_SECOND" = true) →
      (captureWithRetry outcome maxRetries).1 = .error (err maxRetries)
      ∧ List.count Event.shotAttempt (captureWithRetry outcome maxRetries).2
          = maxRetries + 1) := by
  refine ⟨?_, ?_, ?_⟩
  · intro attempt e he hnot
    rw [captureWithRetryFrom_step, he]
    simp only
    rw [if_neg (fun hcon => hnot hcon.1)]
  · intro attempt e he hne hinc hlt
    refine ⟨?_, ?_, ?_⟩
    · conv_lhs => rw [captureWithRetryFrom_step, he]
      simp only
      rw [if_pos ⟨⟨hne, hinc⟩, hlt⟩]
    · unfold captureAttemptDelay
      rw [if_pos (by omega)]
    · intro d d2 hd hd2
      unfold captureAttemptDelay at hd hd2
      rw [if_pos (by omega)] at hd2
      simp at hd2
      rcases Nat.eq_zero_or_pos attempt with h0 | h0
      · subst h0
        rw [if_neg (by omega), if_pos (by omega)] at hd
        simp at hd
        omega
      · rw [if_pos (by omega)] at hd
        simp at hd
        omega
  · intro err hfail hrl
    have h := captureRetry_exhaust outcome maxRetries err hfail hrl maxRetries 0
      (by omega) (by omega)
    simpa [captureWithRetry] using h

/-- C8 witness: the theorem applied to a concrete always-rate-limited
outcome (exhaustion after four attempts) and to a concrete unrelated
failure (immediate propagation). -/
theorem C8_capture_retry_policy_witness :
    ((captureWithRetry
        (fun _ => .error "MAX_CAPTURE_VISIBLE_TAB_CALLS_PER_SECOND exceeded") 3).1
      = .error "MAX_CAPTURE_VISIBLE_TAB_CALLS_PER_SECOND exceeded"
    ∧ List.count Event.shotAttempt
        (captureWithRetry
          (fun _ => .error "MAX_CAPTURE_VISIBLE_TAB_CALLS_PER_SECOND exceeded") 3).2
      = 4)
    ∧ captureWithRetryFrom (fun _ => .error "tab closed") 3 0
      = (.error "tab closed", captureAttemptDelay 3 0 ++ [Event.shotAttempt]) := by
  constructor
  · exact (C8_capture_retry_policy
      (fun _ => .error "MAX_CAPTURE_VISIBLE_TAB_CALLS_PER_SECOND exceeded") 3).2.2
      (fun _ => "MAX_CAPTURE_VISIBLE_TAB_CALLS_PER_SECOND exceeded")
      (fun _ _ => rfl)
      (by
        intro i hi
        refine ⟨?_, ?_⟩
        · show ("MAX_CAPTURE_VISIBLE_TAB_CALLS_PER_SECOND exceeded" : String) ≠ ""
          decide
        · show strIncludes "MAX_CAPTURE_VISIBLE_TAB_CALLS_PER_SECOND exceeded"
            "MAX_CAPTURE_VISIBLE_TAB_CALLS_PER_SECOND" = true
          decide)
  · exact (C8_capture_retry_policy (fun _ => .error "tab closed") 3).1 0 "tab closed"
      rfl (by decide)

/-! ## C7: full-page shot offsets -/

theorem foldl_scroll_invariant {α : Type}
    (f : (Except String α × List Event) → Nat → (Except String α × List Event))
    (P : Int → Prop)
    (hf : ∀ acc i x y, Event.scrollTo x y ∈ (f acc i).2 →
      Event.scrollTo x y ∈ acc.2 ∨ P y) :
    ∀ (l : List Nat) acc x y, Event.scrollTo x y ∈ (l.foldl f acc).2 →
      Event.scrollTo x y ∈ acc.2 ∨ P y := by
  intro l
  induction l with
  | nil => intro acc x y hm; exact .inl hm
  | cons i rest ih =>
      intro acc x y hm
      rcases ih (f acc i) x y hm with hin | hp
      · exact hf acc i x y hin
      · exact .inr hp

/-- C7 counterexample: the background captureFullPage does not clamp
its shot offsets.  On a page of total height 1000 and viewport height
600 the second shot scrolls to offset 600, which exceeds
totalHeight - viewportHeight = 400; the claim as stated fails on the
background implementation. -/
theorem C7_bg_offsets_unclamped_counterexample :
    Event.scrollTo 0 600 ∈
      (captureFullPage
        { pageInfo := ⟨1000, 600, 800, 0, 0⟩,
          shotResp := fun _ _ => .ok "d" }).2
    ∧ ¬((600 : Int) ≤ 1000 - 600) := by
  constructor
  · decide
  · decide

/-- C7 (amended): in the popup captureFullPage every shot offset, in
particular the last, is clamped by Math.min to
scrollHeight - viewportHeight, so no shot scrolls past the bottom of
the document; the background captureFullPage, by contrast, uses the
unclamped offsets i * viewport (see the counterexample). -/
theorem C7_popup_offsets_clamped (env : Popup.PopupEnv)
    (hv : 0 < env.pageInfo.viewport)
    (hh : env.pageInfo.viewport ≤ env.pageInfo.height) :
    ∀ x y, Event.scrollTo x y ∈ (Popup.captureFullPage env).2 →
      y ≤ env.pageInfo.height - env.pageInfo.viewport := by
  intro x y hm
  have hloop : Event.scrollTo x y ∈
      (Popup.shotLoop env env.pageInfo.height env.pageInfo.viewport
        (numShots env.pageInfo.height env.pageInfo.viewport)).2 := by
    rcases hsl : Popup.shotLoop env env.pageInfo.height env.pageInfo.viewport
        (numShots env.pageInfo.height env.pageInfo.viewport) with ⟨r, evs⟩
    simp only [Popup.captureFullPage, hsl] at hm
    simp only [hsl]
    cases r with
    | error e => simpa using hm
    | ok caps =>
        simp only [List.mem_append] at hm
        rcases hm with hm | hm
        · simpa using hm
        · simp at hm
  have := foldl_scroll_invariant
    (fun acc i =>
      match acc with
      | (.error e, evs) => (.error e, evs)
      | (.ok caps, evs) =>
          let scrollY := min ((i : Int) * env.pageInfo.viewport)
            (env.pageInfo.height - env.pageInfo.viewport)
          match env.shotResp i with
          | .ok dataUrl =>
              (.ok (caps ++ [(dataUrl, scrollY)]),
               evs ++ [Event.scrollTo 0 scrollY, Event.delayMs 30, Event.shotAttempt])
          | .error e =>
              (.error e,
               evs ++ [Event.scrollTo 0 scrollY, Event.delayMs 30, Event.shotAttempt]))
    (fun y0 => y0 ≤ env.pageInfo.height - env.pageInfo.viewport)
    (by
      intro acc i x0 y0 hmem
      rcases acc with ⟨r, evs⟩
      cases r with
      | error e => exact .inl hmem
      | ok caps =>
          cases hr : env.shotResp i with
          | ok d =>
              simp only [hr, List.mem_append, List.mem_cons] at hmem
              rcases hmem with hin | hone
              · exact .inl hin
              · rcases hone with heq | heq | heq | heq
                · cases heq
                  exact .inr (min_le_right _ _)
                · exact absurd heq (by simp)
                · exact absurd heq (by simp)
                · simp at heq
          | error e =>
              simp only [hr, List.mem_append, List.mem_cons] at hmem
              rcases hmem with hin | hone
              · exact .inl hin
              · rcases hone with heq | heq | heq | heq
                · cases heq
                  exact .inr (min_le_right _ _)
                · exact absurd heq (by simp)
                · exact absurd heq (by simp)
                · simp at heq)
    (List.range (numShots env.pageInfo.height env.pageInfo.viewport))
    (.ok [], []) x y hloop
  rcases this with hin | hp
  · simp at hin
  · exact hp

/-- C7 witness: the amended theorem applied to a concrete popup
environment with total height 1000 and viewport 600, at the scroll
event of the second shot, whose clamped offset is 400. -/
theorem C7_popup_offsets_clamped_witness :
    Event.scrollTo 0 400 ∈
      (Popup.captureFullPage
        { pageInfo := ⟨1000, 600, 800, 0, 0⟩,
          shotResp := fun _ => .ok "d" }).2
    ∧ (400 : Int) ≤ (1000 : Int) - 600 :=
  ⟨by decide,
   C7_popup_offsets_clamped
     { pageInfo := ⟨1000, 600, 800, 0, 0⟩, shotResp := fun _ => .ok "d" }
     (by decide) (by decide) 0 400 (by decide)⟩

/-! ## C9: missing credentials fail fast with no network call -/

theorem validateRequiredKey_missing (p : String) (s : Settings)
    (hreq : requiresKey p = true) (habs : credentialOf p s = "") :
    AIService.validateRequiredKey p s = .error (missingCredentialMsg p) := by
  unfold requiresKey at hreq
  simp only [Bool.or_eq_true, decide_eq_true_eq] at hreq
  have hcases : p = "openai" ∨ p = "anthropic" ∨ p = "google-gemini"
      ∨ p = "ollama-cloud" ∨ p = "google-vision" := by tauto
  unfold AIService.validateRequiredKey credentialOf missingCredentialMsg at *
  rcases hcases with h | h | h | h | h <;> subst h <;> simp_all

/-- C9: for describeImage, analyzeText and askFollowUp, a provider
requiring a credential that is absent in the settings makes the
operation fail with its named missing-credential message and a trace
containing only the operation entry event (no network request); for
getModels with a hosted provider and no key, no network request is
ever made, and outside an unexpired cache hit the named key-required
error is raised. -/
theorem C9_missing_credential_no_network (env : AIService.AIEnv) (s : Settings)
    (img text question : String) (history : List (String × String))
    (cache : ModelCache) (now : Int) (provider apiKey : String) :
    (requiresKey s.visionApiProvider = true → credentialOf s.visionApiProvider s = "" →
      AIService.describeImage env img s
        = (.error (missingCredentialMsg s.visionApiProvider), [Event.describeImageEv]))
    ∧ (requiresKey s.textApiProvider = true → credentialOf s.textApiProvider s = "" →
      AIService.analyzeText env text s
        = (.error (missingCredentialMsg s.textApiProvider), [Event.analyzeTextEv]))
    ∧ (requiresKey s.textApiProvider = true → credentialOf s.textApiProvider s = "" →
      AIService.askFollowUp env question history s
        = (.error (missingCredentialMsg s.textApiProvider), [Event.askFollowUpEv]))
    ∧ ((provider = "openai" ∨ provider = "anthropic" ∨ provider = "google-gemini"
        ∨ provider = "ollama-cloud") → apiKey = "" →
      netRequests (AIService.getModels env cache now provider apiKey).2.2 = []
      ∧ (cacheMiss cache (cacheKeyOf provider apiKey) now = true →
        (AIService.getModels env cache now provider apiKey).1
          = .error "API Key is required for this provider")) := by
  refine ⟨?_, ?_, ?_, ?_⟩
  · intro hreq habs
    unfold AIService.describeImage
    rw [validateRequiredKey_missing _ _ hreq habs]
  · intro hreq habs
    unfold AIService.analyzeText
    rw [validateRequiredKey_missing _ _ hreq habs]
  · intro hreq habs
    unfold AIService.askFollowUp
    rw [validateRequiredKey_missing _ _ hreq habs]
  · intro hprov habs
    unfold AIService.getModels
    rcases hm : lookupAssoc cache.models (cacheKeyOf provider apiKey) with _ | ms
    · simp only [hm]
      have hkey : ((provider = "openai" || provider = "anthropic"
          || provider = "google-gemini" || provider = "ollama-cloud") && apiKey = "")
          = true := by
        rcases hprov with h | h | h | h <;> subst h <;> simp [habs]
      rw [if_pos hkey]
      exact ⟨rfl, fun _ => rfl⟩
    · rcases he : lookupAssoc cache.expiry (cacheKeyOf provider apiKey) with _ | exp
      · simp only [hm, he]
        have hkey : ((provider = "openai" || provider = "anthropic"
            || provider = "google-gemini" || provider = "ollama-cloud") && apiKey = "")
            = true := by
          rcases hprov with h | h | h | h <;> subst h <;> simp [habs]
        rw [if_pos hkey]
        exact ⟨rfl, fun _ => rfl⟩
      · simp only [hm, he]
        by_cases hexp : now < exp
        · rw [if_pos hexp]
          refine ⟨rfl, ?_⟩
          intro hmiss
          unfold cacheMiss at hmiss
          rw [hm, he] at hmiss
          simp [hexp] at hmiss
        · rw [if_neg hexp]
          have hkey : ((provider = "openai" || provider = "anthropic"
              || provider = "google-gemini" || provider = "ollama-cloud") && apiKey = "")
              = true := by
            rcases hprov with h | h | h | h <;> subst h <;> simp [habs]
          rw [if_pos hkey]
          exact ⟨rfl, fun _ => rfl⟩

/-- C9 witness: the theorem applied at openai settings with every key
absent, and at getModels for openai without a key on an empty cache. -/
theorem C9_missing_credential_no_network_witness :
    AIService.describeImage {} "img" ⟨"openai", "openai", "", "", "", "", "", "", ""⟩
      = (.error "OpenAI API Key is required", [Event.describeImageEv])
    ∧ netRequests (AIService.getModels {} emptyCache 0 "openai" "").2.2 = []
    ∧ (AIService.getModels {} emptyCache 0 "openai" "").1
      = .error "API Key is required for this provider" := by
  refine ⟨?_, ?_, ?_⟩
  · exact ((C9_missing_credential_no_network {} ⟨"openai", "openai", "", "", "", "", "", "", ""⟩
      "img" "" "" [] emptyCache 0 "" "").1 (by decide) (by decide)).trans rfl
  · exact ((C9_missing_credential_no_network {} ⟨"openai", "openai", "", "", "", "", "", "", ""⟩
      "img" "" "" [] emptyCache 0 "openai" "").2.2.2 (.inl rfl) rfl).1
  · exact ((C9_missing_credential_no_network {} ⟨"openai", "openai", "", "", "", "", "", "", ""⟩
      "img" "" "" [] emptyCache 0 "openai" "").2.2.2 (.inl rfl) rfl).2 (by decide)

/-! ## C4: restricted urls error out before any capture -/

theorem strField_setField_status (r : JsObj) (v : JsVal) :
    strField (setField r "status" v) "url" = strField r "url" := by
  simp [strField, getField_setField]

theorem intFieldTruthy_setField_status (r : JsObj) (v : JsVal) :
    intFieldTruthy (setField r "status" v) "tabId" = intFieldTruthy r "tabId" := by
  simp [intFieldTruthy, getField_setField]

/-- C4: for every dequeued request whose target url is restricted (or
missing), the orchestrator transitions directly to error with a
user-facing message: the run performs exactly one state write, an
error state, and in particular never writes the capturing status and
never invokes any capture operation. -/
theorem C4_restricted_url_direct_error (env : Env) (rs : RunState) (r : JsObj)
    (hbusy : rs.pollingActive = false)
    (hreq : rs.store.captureRequest = some r)
    (hpend : getField r "status" = some (.str "pending"))
    (hurl : isRestrictedUrl (strField r "url") = true) :
    ∃ errState msg,
      (processQueuedRequest env rs).2 = [Event.stateWrite errState]
      ∧ getField errState "status" = some (.str "error")
      ∧ getField errState "error" = some (.str msg)
      ∧ (msg = "Cannot capture screenshots on this page (Restricted URL)."
         ∨ msg = "Target tab could not be identified.")
      ∧ (processQueuedRequest env rs).1.store.currentCapture = some errState := by
  unfold processQueuedRequest
  unfold CaptureQueue.dequeue
  simp only [hbusy, hreq, hpend, Bool.false_eq_true, if_false,
    strField_setField_status, intFieldTruthy_setField_status, reduceIte]
  rcases htab : (match intFieldTruthy r "tabId" with
    | some t => some t
    | none => env.activeTab) with _ | tid
  · simp only [htab]
    refine ⟨setField (spread (rs.store.currentCapture.getD [])
        [("status", JsVal.str "error"),
         ("error", JsVal.str "Target tab could not be identified.")])
        "updatedAt" (.num rs.time),
      "Target tab could not be identified.", rfl, ?_, ?_, .inr rfl, rfl⟩
    · simp [spread, getField_setField]
    · simp [spread, getField_setField]
  · simp only [htab]
    rw [if_pos hurl]
    refine ⟨setField (spread (rs.store.currentCapture.getD [])
        [("status", JsVal.str "error"),
         ("error", JsVal.str "Cannot capture screenshots on this page (Restricted URL).")])
        "updatedAt" (.num rs.time),
      "Cannot capture screenshots on this page (Restricted URL).",
      rfl, ?_, ?_, .inl rfl, rfl⟩
    · simp [spread, getField_setField]
    · simp [spread, getField_setField]

/-- C4 witness: the theorem applied at a concrete pending request for
a chrome-internal url. -/
theorem C4_restricted_url_direct_error_witness :
    ∃ errState msg,
      (processQueuedRequest {}
        ⟨⟨some [("mode", JsVal.str "visible"), ("tabId", JsVal.num 1),
            ("url", JsVal.str "chrome://settings"), ("status", JsVal.str "pending")],
          none, none, defaultSettings⟩, false, 0⟩).2
        = [Event.stateWrite errState]
      ∧ getField errState "status" = some (.str "error")
      ∧ getField errState "error" = some (.str msg)
      ∧ (msg = "Cannot capture screenshots on this page (Restricted URL)."
         ∨ msg = "Target tab could not be identified.")
      ∧ (processQueuedRequest {}
          ⟨⟨some [("mode", JsVal.str "visible"), ("tabId", JsVal.num 1),
              ("url", JsVal.str "chrome://settings"), ("status", JsVal.str "pending")],
            none, none, defaultSettings⟩, false, 0⟩).1.store.currentCapture
        = some errState :=
  C4_restricted_url_direct_error {} _ _ rfl rfl (by decide) (by decide)

/-! ## Trace shape of the AI gateway operations -/
theorem allNet_append (a b : List Event) :
    allNet (a ++ b) = (allNet a && allNet b) := by
  simp [allNet, List.all_append]
theorem allNet_not_analyzeTextEv (evs : List Event) (h : allNet evs = true) :
    Event.analyzeTextEv ∉ evs := by
  intro hm
  have := List.all_eq_true.mp h _ hm
  simp at this
theorem allNet_writtenStates (evs : List Event) (h : allNet evs = true) :
    writtenStates evs = [] := by
  induction evs with
  | nil => rfl
  | cons e rest ih =>
      rw [allNet, List.all_cons, Bool.and_eq_true] at h
      cases e <;> simp_all [writtenStates, allNet]
theorem allNet_netRequests (evs : List Event) (h : allNet evs = true) :
    netRequests evs = evs := by
  induction evs with
  | nil => rfl
  | cons e rest ih =>
      rw [allNet, List.all_cons, Bool.and_eq_true] at h
      cases e <;> simp_all [netRequests, allNet]
theorem checkLocalHealth_allNet (env : AIService.AIEnv) :
    allNet (AIService.checkLocalHealth env).2 = true := by
  unfold AIService.checkLocalHealth
  repeat' split
  all_goals simp [allNet]
theorem hasLocalModel_allNet (env : AIService.AIEnv) (m : String) :
    allNet (AIService.hasLocalModel env m).2 = true := by
  unfold AIService.hasLocalModel
  rcases h : AIService.checkLocalHealth env with ⟨r, evs⟩
  have := checkLocalHealth_allNet env
  rw [h] at this
  cases r <;> simpa using this

theorem describeImageOllamaAvail_allNet (env : AIService.AIEnv) (s : Settings) :
    allNet (AIService.describeImageOllamaAvail env s).2 = true := by
  unfold AIService.describeImageOllamaAvail
  split
  · rfl
  · have hl := hasLocalModel_allNet env s.visionModel
    split
    · rename_i m evs heq
      rw [heq] at hl
      simpa using hl
    · rename_i hasModel evs heq
      rw [heq] at hl
      split <;> simpa using hl

theorem describeImageOllamaFetch_allNet (env : AIService.AIEnv) (baseUrl : String) :
    allNet (AIService.describeImageOllamaFetch env baseUrl).2 = true := by
  unfold AIService.describeImageOllamaFetch
  repeat' split
  all_goals simp [allNet]

theorem describeImageOllama_allNet (env : AIService.AIEnv) (s : Settings) :
    allNet (AIService.describeImageOllama env s).2 = true := by
  unfold AIService.describeImageOllama
  rcases h : AIService.describeImageOllamaAvail env s with ⟨r, evs0⟩
  have ha := describeImageOllamaAvail_allNet env s
  rw [h] at ha
  have hf := describeImageOllamaFetch_allNet env
    (AIService.getBaseUrl s.visionApiProvider)
  cases r
  · simpa using ha
  · simp only []
    split <;> simp_all [allNet_append]
theorem describeImageGoogleVision_allNet (env : AIService.AIEnv) (s : Settings) :
    allNet (AIService.describeImageGoogleVision env s).2 = true := by
  unfold AIService.describeImageGoogleVision
  repeat' split
  all_goals simp [allNet]
theorem describeImageOpenAI_allNet (env : AIService.AIEnv) (s : Settings) :
    allNet (AIService.describeImageOpenAI env s).2 = true := by
  unfold AIService.describeImageOpenAI
  repeat' split
  all_goals simp [allNet]
theorem describeImageAnthropic_allNet (env : AIService.AIEnv) (s : Settings) :
    allNet (AIService.describeImageAnthropic env s).2 = true := by
  unfold AIService.describeImageAnthropic
  repeat' split
  all_goals simp [allNet]
theorem describeImageGemini_allNet (env : AIService.AIEnv) (s : Settings) :
    allNet (AIService.describeImageGemini env s).2 = true := by
  unfold AIService.describeImageGemini
  repeat' split
  all_goals simp [allNet]
theorem analyzeTextOllama_allNet (env : AIService.AIEnv) (t : String) (s : Settings) :
    allNet (AIService.analyzeTextOllama env t s).2 = true := by
  unfold AIService.analyzeTextOllama
  repeat' split
  all_goals simp [allNet]
theorem analyzeTextOpenAI_allNet (env : AIService.AIEnv) (t : String) (s : Settings) :
    allNet (AIService.analyzeTextOpenAI env t s).2 = true := by
  unfold AIService.analyzeTextOpenAI
  repeat' split
  all_goals simp [allNet]
theorem analyzeTextAnthropic_allNet (env : AIService.AIEnv) (t : String) (s : Settings) :
    allNet (AIService.analyzeTextAnthropic env t s).2 = true := by
  unfold AIService.analyzeTextAnthropic
  repeat' split
  all_goals simp [allNet]
theorem analyzeTextGemini_allNet (env : AIService.AIEnv) (t : String) (s : Settings) :
    allNet (AIService.analyzeTextGemini env t s).2 = true := by
  unfold AIService.analyzeTextGemini
  repeat' split
  all_goals simp [allNet]
theorem describeImage_tail (env : AIService.AIEnv) (img : String) (s : Settings) :
    ∃ rest, (AIService.describeImage env img s).2 = Event.describeImageEv :: rest
      ∧ allNet rest = true := by
  unfold AIService.describeImage
  rcases h : AIService.validateRequiredKey s.visionApiProvider s with m | u
  · simp only [h]
    exact ⟨[], rfl, rfl⟩
  · simp only [h]
    repeat' split
    · exact ⟨_, rfl, describeImageOllama_allNet env s⟩
    · exact ⟨_, rfl, describeImageGoogleVision_allNet env s⟩
    · exact ⟨_, rfl, describeImageOpenAI_allNet env s⟩
    · exact ⟨_, rfl, describeImageAnthropic_allNet env s⟩
    · exact ⟨_, rfl, describeImageGemini_allNet env s⟩
    · exact ⟨[], rfl, rfl⟩

theorem analyzeText_tail (env : AIService.AIEnv) (t : String) (s : Settings) :
    ∃ rest, (AIService.analyzeText env t s).2 = Event.analyzeTextEv :: rest
      ∧ allNet rest = true := by
  unfold AIService.analyzeText
  rcases h : AIService.validateRequiredKey s.textApiProvider s with m | u
  · simp only [h]
    exact ⟨[], rfl, rfl⟩
  · simp only [h]
    repeat' split
    · exact ⟨_, rfl, analyzeTextOllama_allNet env t s⟩
    · exact ⟨_, rfl, analyzeTextOpenAI_allNet env t s⟩
    · exact ⟨_, rfl, analyzeTextAnthropic_allNet env t s⟩
    · exact ⟨_, rfl, analyzeTextGemini_allNet env t s⟩
    · exact ⟨[], rfl, rfl⟩

theorem describeImage_no_analyzeTextEv (env : AIService.AIEnv) (img : String)
    (s : Settings) :
    Event.analyzeTextEv ∉ (AIService.describeImage env img s).2 := by
  obtain ⟨rest, heq, hnet⟩ := describeImage_tail env img s
  rw [heq]
  intro hm
  rcases List.mem_cons.mp hm with h | h
  · exact absurd h (by simp)
  · exact allNet_not_analyzeTextEv rest hnet h

theorem describeImage_writtenStates (env : AIService.AIEnv) (img : String)
    (s : Settings) :
    writtenStates (AIService.describeImage env img s).2 = [] := by
  obtain ⟨rest, heq, hnet⟩ := describeImage_tail env img s
  rw [heq]
  simpa [writtenStates] using allNet_writtenStates rest hnet

theorem analyzeText_writtenStates (env : AIService.AIEnv) (t : String)
    (s : Settings) :
    writtenStates (AIService.analyzeText env t s).2 = [] := by
  obtain ⟨rest, heq, hnet⟩ := analyzeText_tail env t s
  rw [heq]
  simpa [writtenStates] using allNet_writtenStates rest hnet

/-! ## C5: vision failures are fatal, text-analysis failures degrade -/

theorem updateStateE_fst_store_settings (rs : RunState) (upd : JsObj) :
    (updateStateE rs upd).1.store.settings = rs.store.settings := rfl

theorem updateStateE_fst_store_currentCapture (rs : RunState) (upd : JsObj) :
    (updateStateE rs upd).1.store.currentCapture
      = some (setField (spread (rs.store.currentCapture.getD []) upd)
          "updatedAt" (.num rs.time)) := rfl

theorem updateStateE_snd (rs : RunState) (upd : JsObj) :
    (updateStateE rs upd).2
      = [Event.stateWrite (setField (spread (rs.store.currentCapture.getD []) upd)
          "updatedAt" (.num rs.time))] := rfl

/-- C5: in processCapturedImage, if the vision step fails the capture
terminates with status error wrapping the vision message and the
text-analysis step is never invoked; if the vision step succeeds and
the text-analysis step fails (with no cancellation observed), the
capture still terminates with status complete and its result combines
the sanitized vision text with the analysis-unavailable note carrying
the thrown message. -/
theorem C5_vision_fatal_text_degrades (env : Env) (rs : RunState)
    (dataUrl img m d : String)
    (himg : extractBase64 dataUrl = some img) (hne : img ≠ "")
    (hvp : rs.store.settings.visionApiProvider ≠ "")
    (htp : rs.store.settings.textApiProvider ≠ "") :
    (∀ evs, AIService.describeImage env.ai img rs.store.settings = (.error m, evs) →
      Event.analyzeTextEv ∉ (processCapturedImage env dataUrl rs).2
      ∧ ∃ s, (processCapturedImage env dataUrl rs).1.store.currentCapture = some s
        ∧ getField s "status" = some (.str "error")
        ∧ getField s "error" = some (.str ("Vision analysis failed: " ++ m)))
    ∧ (∀ evs evs2,
      AIService.describeImage env.ai img rs.store.settings = (.ok d, evs) →
      AIService.analyzeText env.ai (sanitizeSensitiveData d) rs.store.settings
        = (.error m, evs2) →
      env.cancelBeforeText = false → env.cancelBeforeComplete = false →
      ∃ s, (processCapturedImage env dataUrl rs).1.store.currentCapture = some s
        ∧ getField s "status" = some (.str "complete")
        ∧ getField s "result" = some (formatResult (sanitizeSensitiveData d)
            ("Analysis unavailable: " ++ m))) := by
  constructor
  · intro evs hdesc
    have hno := describeImage_no_analyzeTextEv env.ai img rs.store.settings
    rw [hdesc] at hno
    unfold processCapturedImage analyzeScreenshot
    simp only [himg, hne, if_false, CaptureQueue.getSettings,
      updateStateE_fst_store_settings, hvp, htp, hdesc, updateStateE_snd,
      updateStateE_fst_store_currentCapture, reduceIte]
    constructor
    · simp [List.mem_append, hno]
    · refine ⟨_, rfl, ?_, ?_⟩
      · simp [spread, getField_setField]
      · simp [spread, getField_setField]
  · intro evs evs2 hdesc htext hcb1 hcb2
    unfold processCapturedImage analyzeScreenshot
    simp only [himg, hne, if_false, CaptureQueue.getSettings,
      updateStateE_fst_store_settings, hvp, htp, hdesc, htext, hcb1, hcb2,
      externalCancel, Bool.false_eq_true, decide_False, Bool.or_self,
      updateStateE_snd, updateStateE_fst_store_currentCapture,
      stateStatusIs, CaptureQueue.getState, spread, List.foldl_cons,
      List.foldl_nil, getField_setField, reduceIte, String.reduceEq,
      Option.some.injEq, JsVal.str.injEq, decide_eq_true_eq]
    refine ⟨_, rfl, ?_, ?_⟩
    · simp [spread, getField_setField]
    · simp [spread, getField_setField]

/-- C5 witness: the theorem applied to a concrete openai configuration
with a failing vision call, and with a succeeding vision call followed
by a failing text-analysis call. -/
theorem C5_vision_fatal_text_degrades_witness :
    (Event.analyzeTextEv ∉ (processCapturedImage
        { ai := { openaiVision := .error "fail" } } "data:image/png;base64,AAAA"
        ⟨⟨none, none, none, ⟨"openai", "openai", "", "", "", "", "k", "", ""⟩⟩,
         false, 0⟩).2
      ∧ ∃ s, (processCapturedImage
        { ai := { openaiVision := .error "fail" } } "data:image/png;base64,AAAA"
        ⟨⟨none, none, none, ⟨"openai", "openai", "", "", "", "", "k", "", ""⟩⟩,
         false, 0⟩).1.store.currentCapture = some s
        ∧ getField s "status" = some (.str "error")
        ∧ getField s "error"
          = some (.str ("Vision analysis failed: " ++ "OpenAI Vision failed: fail")))
    ∧ (∃ s, (processCapturedImage
        { ai := { openaiVision := .ok "hello", openaiText := .error "boom" } }
        "data:image/png;base64,AAAA"
        ⟨⟨none, none, none, ⟨"openai", "openai", "", "", "", "", "k", "", ""⟩⟩,
         false, 0⟩).1.store.currentCapture = some s
        ∧ getField s "status" = some (.str "complete")
        ∧ getField s "result" = some (formatResult (sanitizeSensitiveData "hello")
            ("Analysis unavailable: " ++ "OpenAI Text Analysis failed: boom"))) := by
  constructor
  · exact (C5_vision_fatal_text_degrades
      { ai := { openaiVision := .error "fail" } }
      ⟨⟨none, none, none, ⟨"openai", "openai", "", "", "", "", "k", "", ""⟩⟩, false, 0⟩
      "data:image/png;base64,AAAA" "AAAA" "OpenAI Vision failed: fail" ""
      (by decide) (by decide) (by decide) (by decide)).1
      [Event.describeImageEv,
       Event.netRequest "https://api.openai.com/v1/chat/completions"] rfl
  · exact (C5_vision_fatal_text_degrades
      { ai := { openaiVision := .ok "hello", openaiText := .error "boom" } }
      ⟨⟨none, none, none, ⟨"openai", "openai", "", "", "", "", "k", "", ""⟩⟩, false, 0⟩
      "data:image/png;base64,AAAA" "AAAA" "OpenAI Text Analysis failed: boom"
      "hello"
      (by decide) (by decide) (by decide) (by decide)).2
      [Event.describeImageEv,
       Event.netRequest "https://api.openai.com/v1/chat/completions"]
      [Event.analyzeTextEv,
       Event.netRequest "https://api.openai.com/v1/chat/completions"]
      rfl rfl rfl rfl

/-! ## C6: what the cancellation checkpoints actually do -/

theorem netRequests_append (a b : List Event) :
    netRequests (a ++ b) = netRequests a ++ netRequests b := by
  simp [netRequests, List.filter_append]

/-- C6 counterexample: a cancel observed at the checkpoint before text
analysis does not leave the cancelled terminal state: the thrown
Capture cancelled error is caught by processCapturedImage, which
records status error, contradicting the claim that a capture never
ends in error once cancellation has been observed at a checkpoint. -/
theorem C6_cancel_before_text_ends_in_error_counterexample :
    ∃ s, (processCapturedImage
        { ai := { openaiVision := .ok "hello" }, cancelBeforeText := true }
        "data:image/png;base64,AAAA"
        ⟨⟨none, none, none, ⟨"openai", "openai", "", "", "", "", "k", "", ""⟩⟩,
         false, 0⟩).1.store.currentCapture = some s
      ∧ getField s "status" = some (.str "error")
      ∧ getField s "error" = some (.str "Capture cancelled")
      ∧ getField s "status" ≠ some (.str "cancelled") := by
  refine ⟨_, rfl, ?_, ?_, ?_⟩ <;> decide

/-- C6 (amended): a cancel observed at the checkpoint before text
analysis stops all further network activity (the text-analysis step is
never invoked and no network request beyond the vision step occurs)
but records status error with the message Capture cancelled, not the
cancelled terminal state; a cancel observed at the checkpoint before
writing complete leaves the cancelled status in place, with no state
write by the pipeline other than the analyzing transition and no
network activity beyond the vision and text steps. -/
theorem C6_cancel_checkpoints (env : Env) (rs : RunState)
    (dataUrl img d : String)
    (himg : extractBase64 dataUrl = some img) (hne : img ≠ "")
    (hvp : rs.store.settings.visionApiProvider ≠ "")
    (htp : rs.store.settings.textApiProvider ≠ "") :
    (∀ evs, AIService.describeImage env.ai img rs.store.settings = (.ok d, evs) →
      env.cancelBeforeText = true →
      netRequests (processCapturedImage env dataUrl rs).2 = netRequests evs
      ∧ Event.analyzeTextEv ∉ (processCapturedImage env dataUrl rs).2
      ∧ ∃ s, (processCapturedImage env dataUrl rs).1.store.currentCapture = some s
        ∧ getField s "status" = some (.str "error")
        ∧ getField s "error" = some (.str "Capture cancelled"))
    ∧ (∀ evs evs2 r,
      AIService.describeImage env.ai img rs.store.settings = (.ok d, evs) →
      AIService.analyzeText env.ai (sanitizeSensitiveData d) rs.store.settings
        = (r, evs2) →
      env.cancelBeforeText = false → env.cancelBeforeComplete = true →
      netRequests (processCapturedImage env dataUrl rs).2
        = netRequests evs ++ netRequests evs2
      ∧ (∀ s', s' ∈ writtenStates (processCapturedImage env dataUrl rs).2 →
          hasStatus s' "analyzing" = true)
      ∧ ∃ s, (processCapturedImage env dataUrl rs).1.store.currentCapture = some s
        ∧ getField s "status" = some (.str "cancelled")) := by
  constructor
  · intro evs hdesc hcb1
    have hno := describeImage_no_analyzeTextEv env.ai img rs.store.settings
    rw [hdesc] at hno
    unfold processCapturedImage analyzeScreenshot
    simp only [himg, hne, if_false, CaptureQueue.getSettings,
      updateStateE_fst_store_settings, hvp, htp, hdesc, hcb1,
      externalCancel, if_true, decide_False, Bool.or_self,
      updateStateE_snd, updateStateE_fst_store_currentCapture,
      stateStatusIs, CaptureQueue.getState, CaptureQueue.cancel,
      CaptureQueue.updateState, spread, List.foldl_cons,
      List.foldl_nil, getField_setField, reduceIte, String.reduceEq,
      Option.some.injEq, JsVal.str.injEq, decide_eq_true_eq]
    refine ⟨?_, ?_, ?_⟩
    · simp [netRequests_append, netRequests]
    · simp [List.mem_append, hno]
    · refine ⟨_, rfl, ?_, ?_⟩
      · simp [spread, getField_setField]
      · simp [spread, getField_setField]
  · intro evs evs2 r hdesc htext hcb1 hcb2
    have hw1 := describeImage_writtenStates env.ai img rs.store.settings
    rw [hdesc] at hw1
    have hw2 := analyzeText_writtenStates env.ai (sanitizeSensitiveData d)
      rs.store.settings
    rw [htext] at hw2
    unfold processCapturedImage analyzeScreenshot
    rcases r with m | t
    all_goals
      simp only [himg, hne, if_false, CaptureQueue.getSettings,
        updateStateE_fst_store_settings, hvp, htp, hdesc, htext, hcb1, hcb2,
        externalCancel, if_true, Bool.false_eq_true, decide_False, Bool.or_self,
        updateStateE_snd, updateStateE_fst_store_currentCapture,
        stateStatusIs, CaptureQueue.getState, CaptureQueue.cancel,
        CaptureQueue.updateState, spread, List.foldl_cons,
        List.foldl_nil, getField_setField, reduceIte, String.reduceEq,
        Option.some.injEq, JsVal.str.injEq, decide_eq_true_eq]
    all_goals
      refine ⟨?_, ?_, ?_⟩
      · simp [netRequests_append, netRequests]
      · intro s' hs'
        simp only [writtenStates, List.filterMap_append, List.filterMap_cons,
          List.filterMap_nil] at hs'
        rw [writtenStates] at hw1 hw2
        rw [hw1, hw2] at hs'
        simp at hs'
        subst hs'
        simp [hasStatus, getField_setField]
      · refine ⟨_, rfl, ?_⟩
        simp [spread, getField_setField]

/-- C6 witness: the amended theorem applied at a concrete environment
for each checkpoint. -/
theorem C6_cancel_checkpoints_witness :
    (∃ s, (processCapturedImage
        { ai := { openaiVision := .ok "hello" }, cancelBeforeText := true }
        "data:image/png;base64,AAAA"
        ⟨⟨none, none, none, ⟨"openai", "openai", "", "", "", "", "k", "", ""⟩⟩,
         false, 0⟩).1.store.currentCapture = some s
      ∧ getField s "status" = some (.str "error")
      ∧ getField s "error" = some (.str "Capture cancelled"))
    ∧ (∃ s, (processCapturedImage
        { ai := { openaiVision := .ok "hello", openaiText := .ok "world" },
          cancelBeforeComplete := true }
        "data:image/png;base64,AAAA"
        ⟨⟨none, none, none, ⟨"openai", "openai", "", "", "", "", "k", "", ""⟩⟩,
         false, 0⟩).1.store.currentCapture = some s
      ∧ getField s "status" = some (.str "cancelled")) := by
  constructor
  · exact ((C6_cancel_checkpoints
      { ai := { openaiVision := .ok "hello" }, cancelBeforeText := true }
      ⟨⟨none, none, none, ⟨"openai", "openai", "", "", "", "", "k", "", ""⟩⟩, false, 0⟩
      "data:image/png;base64,AAAA" "AAAA" "hello"
      (by decide) (by decide) (by decide) (by decide)).1
      [Event.describeImageEv,
       Event.netRequest "https://api.openai.com/v1/chat/completions"]
      rfl rfl).2.2
  · exact ((C6_cancel_checkpoints
      { ai := { openaiVision := .ok "hello", openaiText := .ok "world" },
        cancelBeforeComplete := true }
      ⟨⟨none, none, none, ⟨"openai", "openai", "", "", "", "", "k", "", ""⟩⟩, false, 0⟩
      "data:image/png;base64,AAAA" "AAAA" "hello"
      (by decide) (by decide) (by decide) (by decide)).2
      [Event.describeImageEv,
       Event.netRequest "https://api.openai.com/v1/chat/completions"]
      [Event.analyzeTextEv,
       Event.netRequest "https://api.openai.com/v1/chat/completions"]
      (.ok "world") rfl rfl rfl rfl).2.2

/-! ## C3: the result and error exclusivity invariant -/

theorem fieldAbsent_congr (s s' : JsObj) (k : String)
    (h : getField s' k = getField s k) : fieldAbsent s' k = fieldAbsent s k := by
  unfold fieldAbsent
  rw [h]

theorem bothAbsent_some (s : JsObj) :
    bothAbsent (some s) = (fieldAbsent s "result" && fieldAbsent s "error") := rfl

theorem stateAfter_status_only (st : Store) (v : String) (t : Int)
    (hb : bothAbsent st.currentCapture = true) :
    bothAbsent (CaptureQueue.updateState st [("status", .str v)] t).currentCapture = true
    ∧ (v ≠ "complete" → v ≠ "error" →
      exclusiveOkB ((CaptureQueue.updateState st [("status", .str v)] t).currentCapture.getD [])
        = true) := by
  have hres : getField ((CaptureQueue.updateState st [("status", JsVal.str v)] t).currentCapture.getD [])
      "result" = getField (st.currentCapture.getD []) "result" := by
    simp [CaptureQueue.updateState, spread, getField_setField]
  have herr : getField ((CaptureQueue.updateState st [("status", JsVal.str v)] t).currentCapture.getD [])
      "error" = getField (st.currentCapture.getD []) "error" := by
    simp [CaptureQueue.updateState, spread, getField_setField]
  have hst : getField ((CaptureQueue.updateState st [("status", JsVal.str v)] t).currentCapture.getD [])
      "status" = some (.str v) := by
    simp [CaptureQueue.updateState, spread, getField_setField]
  have hb' : fieldAbsent (st.currentCapture.getD []) "result" = true
      ∧ fieldAbsent (st.currentCapture.getD []) "error" = true := by
    cases hcc : st.currentCapture with
    | none => simp [fieldAbsent]
    | some s0 => rw [hcc] at hb; simpa [bothAbsent, Bool.and_eq_true] using hb
  constructor
  · rw [show (CaptureQueue.updateState st [("status", JsVal.str v)] t).currentCapture
      = some ((CaptureQueue.updateState st [("status", JsVal.str v)] t).currentCapture.getD [])
      from rfl]
    rw [bothAbsent_some, fieldAbsent_congr _ _ _ hres, fieldAbsent_congr _ _ _ herr]
    simp [hb'.1, hb'.2]
  · intro hv1 hv2
    unfold exclusiveOkB hasStatus
    rw [hst, fieldAbsent_congr _ _ _ hres, fieldAbsent_congr _ _ _ herr]
    simp [hb'.1, hb'.2, hv1, hv2]

theorem stateAfter_selecting (st : Store) (w : JsVal) (t : Int)
    (hb : bothAbsent st.currentCapture = true) :
    exclusiveOkB ((CaptureQueue.updateState st
      [("status", .str "selecting"), ("tabId", w)] t).currentCapture.getD []) = true := by
  have hb' : fieldAbsent (st.currentCapture.getD []) "result" = true
      ∧ fieldAbsent (st.currentCapture.getD []) "error" = true := by
    cases hcc : st.currentCapture with
    | none => simp [fieldAbsent]
    | some s0 => rw [hcc] at hb; simpa [bothAbsent, Bool.and_eq_true] using hb
  have hres : getField ((CaptureQueue.updateState st
      [("status", JsVal.str "selecting"), ("tabId", w)] t).currentCapture.getD [])
      "result" = getField (st.currentCapture.getD []) "result" := by
    simp [CaptureQueue.updateState, spread, getField_setField]
  have herr : getField ((CaptureQueue.updateState st
      [("status", JsVal.str "selecting"), ("tabId", w)] t).currentCapture.getD [])
      "error" = getField (st.currentCapture.getD []) "error" := by
    simp [CaptureQueue.updateState, spread, getField_setField]
  unfold exclusiveOkB hasStatus
  rw [fieldAbsent_congr _ _ _ hres, fieldAbsent_congr _ _ _ herr]
  have hst : getField ((CaptureQueue.updateState st
      [("status", JsVal.str "selecting"), ("tabId", w)] t).currentCapture.getD [])
      "status" = some (.str "selecting") := by
    simp [CaptureQueue.updateState, spread, getField_setField]
  rw [hst]
  simp [hb'.1, hb'.2]

theorem stateAfter_error (st : Store) (m : String) (t : Int)
    (hb : bothAbsent st.currentCapture = true) :
    exclusiveOkB ((CaptureQueue.updateState st
      [("status", .str "error"), ("error", .str m)] t).currentCapture.getD []) = true := by
  have hb' : fieldAbsent (st.currentCapture.getD []) "result" = true := by
    cases hcc : st.currentCapture with
    | none => simp [fieldAbsent]
    | some s0 =>
        rw [hcc] at hb
        exact (Bool.and_eq_true ..▸ (bothAbsent_some s0 ▸ hb)).1
  have hres : getField ((CaptureQueue.updateState st
      [("status", JsVal.str "error"), ("error", JsVal.str m)] t).currentCapture.getD [])
      "result" = getField (st.currentCapture.getD []) "result" := by
    simp [CaptureQueue.updateState, spread, getField_setField]
  have hst : getField ((CaptureQueue.updateState st
      [("status", JsVal.str "error"), ("error", JsVal.str m)] t).currentCapture.getD [])
      "status" = some (.str "error") := by
    simp [CaptureQueue.updateState, spread, getField_setField]
  have herr : getField ((CaptureQueue.updateState st
      [("status", JsVal.str "error"), ("error", JsVal.str m)] t).currentCapture.getD [])
      "error" = some (.str m) := by
    simp [CaptureQueue.updateState, spread, getField_setField]
  have hresAbs : fieldAbsent ((CaptureQueue.updateState st
      [("status", JsVal.str "error"), ("error", JsVal.str m)] t).currentCapture.getD [])
      "result" = true := by
    rw [fieldAbsent_congr _ _ _ hres]
    exact hb'
  have herrAbs : fieldAbsent ((CaptureQueue.updateState st
      [("status", JsVal.str "error"), ("error", JsVal.str m)] t).currentCapture.getD [])
      "error" = false := by
    unfold fieldAbsent
    rw [herr]
  unfold exclusiveOkB hasStatus
  rw [hst]
  simp [hresAbs, herrAbs]

theorem stateAfter_complete (st : Store) (a b : String) (t : Int)
    (hb : bothAbsent st.currentCapture = true) :
    exclusiveOkB ((CaptureQueue.updateState st
      [("status", .str "complete"), ("result", .res a b)] t).currentCapture.getD [])
      = true := by
  have hb' : fieldAbsent (st.currentCapture.getD []) "error" = true := by
    cases hcc : st.currentCapture with
    | none => simp [fieldAbsent]
    | some s0 =>
        rw [hcc] at hb
        exact (Bool.and_eq_true ..▸ (bothAbsent_some s0 ▸ hb)).2
  have herr : getField ((CaptureQueue.updateState st
      [("status", JsVal.str "complete"), ("result", JsVal.res a b)] t).currentCapture.getD [])
      "error" = getField (st.currentCapture.getD []) "error" := by
    simp [CaptureQueue.updateState, spread, getField_setField]
  have hst : getField ((CaptureQueue.updateState st
      [("status", JsVal.str "complete"), ("result", JsVal.res a b)] t).currentCapture.getD [])
      "status" = some (.str "complete") := by
    simp [CaptureQueue.updateState, spread, getField_setField]
  have hres : getField ((CaptureQueue.updateState st
      [("status", JsVal.str "complete"), ("result", JsVal.res a b)] t).currentCapture.getD [])
      "result" = some (.res a b) := by
    simp [CaptureQueue.updateState, spread, getField_setField]
  have herrAbs : fieldAbsent ((CaptureQueue.updateState st
      [("status", JsVal.str "complete"), ("result", JsVal.res a b)] t).currentCapture.getD [])
      "error" = true := by
    rw [fieldAbsent_congr _ _ _ herr]
    exact hb'
  have hresAbs : fieldAbsent ((CaptureQueue.updateState st
      [("status", JsVal.str "complete"), ("result", JsVal.res a b)] t).currentCapture.getD [])
      "result" = false := by
    unfold fieldAbsent
    rw [hres]
  unfold exclusiveOkB hasStatus
  rw [hst]
  simp [herrAbs, hresAbs]

theorem stateAfter_capturing (st : Store) (x : JsVal) (tid t : Int) :
    bothAbsent (CaptureQueue.updateState st
      [("status", .str "capturing"), ("mode", x), ("tabId", .num tid),
       ("error", .null), ("result", .null)] t).currentCapture = true
    ∧ exclusiveOkB ((CaptureQueue.updateState st
      [("status", .str "capturing"), ("mode", x), ("tabId", .num tid),
       ("error", .null), ("result", .null)] t).currentCapture.getD []) = true := by
  have hres : getField ((CaptureQueue.updateState st
      [("status", JsVal.str "capturing"), ("mode", x), ("tabId", JsVal.num tid),
       ("error", JsVal.null), ("result", JsVal.null)] t).currentCapture.getD [])
      "result" = some .null := by
    simp [CaptureQueue.updateState, spread, getField_setField]
  have herr : getField ((CaptureQueue.updateState st
      [("status", JsVal.str "capturing"), ("mode", x), ("tabId", JsVal.num tid),
       ("error", JsVal.null), ("result", JsVal.null)] t).currentCapture.getD [])
      "error" = some .null := by
    simp [CaptureQueue.updateState, spread, getField_setField]
  have hst : getField ((CaptureQueue.updateState st
      [("status", JsVal.str "capturing"), ("mode", x), ("tabId", JsVal.num tid),
       ("error", JsVal.null), ("result", JsVal.null)] t).currentCapture.getD [])
      "status" = some (.str "capturing") := by
    simp [CaptureQueue.updateState, spread, getField_setField]
  have hra : fieldAbsent ((CaptureQueue.updateState st
      [("status", JsVal.str "capturing"), ("mode", x), ("tabId", JsVal.num tid),
       ("error", JsVal.null), ("result", JsVal.null)] t).currentCapture.getD [])
      "result" = true := by
    unfold fieldAbsent
    rw [hres]
  have hea : fieldAbsent ((CaptureQueue.updateState st
      [("status", JsVal.str "capturing"), ("mode", x), ("tabId", JsVal.num tid),
       ("error", JsVal.null), ("result", JsVal.null)] t).currentCapture.getD [])
      "error" = true := by
    unfold fieldAbsent
    rw [herr]
  constructor
  · rw [show (CaptureQueue.updateState st
      [("status", JsVal.str "capturing"), ("mode", x), ("tabId", JsVal.num tid),
       ("error", JsVal.null), ("result", JsVal.null)] t).currentCapture
      = some ((CaptureQueue.updateState st
      [("status", JsVal.str "capturing"), ("mode", x), ("tabId", JsVal.num tid),
       ("error", JsVal.null), ("result", JsVal.null)] t).currentCapture.getD [])
      from rfl]
    rw [bothAbsent_some, hra, hea]
    rfl
  · unfold exclusiveOkB hasStatus
    rw [hst]
    simp [hra, hea]

theorem stateOkB_of_cancelled (st : Store) (h : stateStatusIs st "cancelled" = true) :
    stateOkB st.currentCapture = true := by
  unfold stateStatusIs CaptureQueue.getState at h
  cases hcc : st.currentCapture with
  | none => rfl
  | some s =>
      rw [hcc] at h
      simp only [decide_eq_true_eq] at h
      simp [stateOkB, exclusiveOkB, hasStatus, h]

theorem writtenStates_append (a b : List Event) :
    writtenStates (a ++ b) = writtenStates a ++ writtenStates b := by
  simp [writtenStates]

theorem captureAttemptDelay_writtenStates (m a : Nat) :
    writtenStates (captureAttemptDelay m a) = [] := by
  unfold captureAttemptDelay
  split
  · rfl
  · split <;> rfl

theorem captureRetrySteps_writtenStates (outcome : Nat → Except String String)
    (m : Nat) :
    ∀ fuel attempt, writtenStates (captureRetrySteps outcome m attempt fuel).2 = [] := by
  intro fuel
  induction fuel with
  | zero =>
      intro attempt
      unfold captureRetrySteps
      cases h : outcome attempt with
      | ok d =>
          simp only [h]
          rw [writtenStates_append, captureAttemptDelay_writtenStates]
          rfl
      | error e =>
          simp only [h]
          split
          all_goals
            rw [writtenStates_append, captureAttemptDelay_writtenStates]
            rfl
  | succ fuel ih =>
      intro attempt
      unfold captureRetrySteps
      cases h : outcome attempt with
      | ok d =>
          simp only [h]
          rw [writtenStates_append, captureAttemptDelay_writtenStates]
          rfl
      | error e =>
          simp only [h]
          split
          · show writtenStates ((captureAttemptDelay m attempt ++ [Event.shotAttempt])
              ++ (captureRetrySteps outcome m (attempt + 1) fuel).2) = []
            rw [writtenStates_append, writtenStates_append,
              captureAttemptDelay_writtenStates, ih]
            rfl
          · rw [writtenStates_append, captureAttemptDelay_writtenStates]
            rfl

theorem foldl_writtenStates_nil {α : Type}
    (f : (Except String α × List Event) → Nat → (Except String α × List Event))
    (hf : ∀ acc i, writtenStates (f acc i).2 = writtenStates acc.2) :
    ∀ (l : List Nat) acc, writtenStates ((l.foldl f acc).2) = writtenStates acc.2 := by
  intro l
  induction l with
  | nil => intro acc; rfl
  | cons i rest ih =>
      intro acc
      rw [List.foldl_cons, ih (f acc i), hf acc i]

theorem captureFullPage_writtenStates (env : Env) :
    writtenStates (captureFullPage env).2 = [] := by
  have hloop : writtenStates (bgShotLoop env env.pageInfo.viewport
      (numShots env.pageInfo.height env.pageInfo.viewport)).2 = [] := by
    have := foldl_writtenStates_nil
      (fun acc (i : Nat) =>
        match acc with
        | (.error e, evs) => (.error e, evs)
        | (.ok caps, evs) =>
            let y := (i : Int) * env.pageInfo.viewport
            let r := captureWithRetry (env.shotResp i) 3
            match r.1 with
            | .ok dataUrl =>
                (.ok (caps ++ [(dataUrl, y)]),
                 evs ++ [Event.scrollTo 0 y, Event.delayMs 30] ++ r.2)
            | .error e =>
                (.error e, evs ++ [Event.scrollTo 0 y, Event.delayMs 30] ++ r.2))
      (by
        intro acc i
        rcases acc with ⟨r0, evs⟩
        cases r0 with
        | error e => rfl
        | ok caps =>
            have hc : writtenStates (captureWithRetry (env.shotResp i) 3).2 = [] :=
              captureRetrySteps_writtenStates (env.shotResp i) 3 (3 - 0) 0
            cases hcap : (captureWithRetry (env.shotResp i) 3).1 with
            | ok d =>
                simp only [hcap]
                rw [writtenStates_append, writtenStates_append, hc]
                simp [writtenStates]
            | error e =>
                simp only [hcap]
                rw [writtenStates_append, writtenStates_append, hc]
                simp [writtenStates])
      (List.range (numShots env.pageInfo.height env.pageInfo.viewport))
      (.ok [], [])
    exact this
  unfold captureFullPage
  rcases h : bgShotLoop env env.pageInfo.viewport
      (numShots env.pageInfo.height env.pageInfo.viewport) with ⟨r, evs⟩
  rw [h] at hloop
  simp only [h]
  cases r with
  | error e => simpa using hloop
  | ok caps =>
      show writtenStates (evs ++ [Event.restoreScroll env.pageInfo.originalScrollX
        env.pageInfo.originalScrollY]) = []
      rw [writtenStates_append]
      have : writtenStates evs = [] := by simpa using hloop
      rw [this]
      rfl

theorem analyzeScreenshot_invariant (env : Env) (img : String) (settings : Settings)
    (rs : RunState) (hb : bothAbsent rs.store.currentCapture = true) :
    writtenStates (analyzeScreenshot env img settings rs).2.2 = []
    ∧ bothAbsent (analyzeScreenshot env img settings rs).2.1.store.currentCapture = true
    ∧ (∀ v, (analyzeScreenshot env img settings rs).1 = .ok v →
        ∃ a b, v = JsVal.res a b) := by
  have hbc : bothAbsent (externalCancel env.cancelBeforeText rs).store.currentCapture
      = true := by
    unfold externalCancel
    split
    · exact (stateAfter_status_only rs.store "cancelled" rs.time hb).1
    · exact hb
  unfold analyzeScreenshot
  split
  · exact ⟨rfl, hb, fun v hv => absurd hv (by simp)⟩
  · rcases hd : AIService.describeImage env.ai img settings with ⟨rd, evs⟩
    have hw1 := describeImage_writtenStates env.ai img settings
    rw [hd] at hw1
    cases rd with
    | error m =>
        simp only [hd]
        exact ⟨hw1, hb, fun v hv => absurd hv (by simp)⟩
    | ok d =>
        simp only [hd]
        split
        · exact ⟨hw1, hbc, fun v hv => absurd hv (by simp)⟩
        · rcases ht : AIService.analyzeText env.ai (sanitizeSensitiveData d) settings
            with ⟨rt, evs2⟩
          have hw2 := analyzeText_writtenStates env.ai (sanitizeSensitiveData d) settings
          rw [ht] at hw2
          cases rt with
          | error m =>
              refine ⟨?_, hbc, ?_⟩
              · rw [writtenStates_append, hw1, hw2]
                rfl
              · intro v hv
                simp only [Except.ok.injEq] at hv
                exact ⟨_, _, hv.symm⟩
          | ok t =>
              refine ⟨?_, hbc, ?_⟩
              · rw [writtenStates_append, hw1, hw2]
                rfl
              · intro v hv
                simp only [Except.ok.injEq] at hv
                exact ⟨_, _, hv.symm⟩

theorem processCapturedImage_invariant (env : Env) (dataUrl : String) (rs : RunState)
    (hb : bothAbsent rs.store.currentCapture = true) :
    (∀ s ∈ writtenStates (processCapturedImage env dataUrl rs).2, exclusiveOkB s = true)
    ∧ stateOkB (processCapturedImage env dataUrl rs).1.store.currentCapture = true := by
  have h1b : bothAbsent
      (updateStateE rs [("status", JsVal.str "analyzing")]).1.store.currentCapture
      = true :=
    (stateAfter_status_only rs.store "analyzing" rs.time hb).1
  have h1ok : exclusiveOkB
      ((updateStateE rs [("status", JsVal.str "analyzing")]).1.store.currentCapture.getD [])
      = true :=
    (stateAfter_status_only rs.store "analyzing" rs.time hb).2 (by decide) (by decide)
  simp only [processCapturedImage]
  rcases hx : extractBase64 dataUrl with _ | b
  · -- invalid image data: error write from the analyzing state
    rw [updateStateE_snd]
    refine ⟨?_, ?_⟩
    · intro s hs
      simp only [writtenStates, List.filterMap_append, List.filterMap_cons,
        List.filterMap_nil, updateStateE_snd, List.nil_append, List.append_nil,
        List.mem_append, List.mem_singleton] at hs
      rcases hs with hs | hs
      · subst hs
        rw [updateStateE_fst_store_currentCapture, Option.getD_some] at h1ok
        exact h1ok
      · subst hs
        exact stateAfter_error
          (updateStateE rs [("status", JsVal.str "analyzing")]).1.store
          "Invalid image data"
          (updateStateE rs [("status", JsVal.str "analyzing")]).1.time h1b
    · exact stateAfter_error
        (updateStateE rs [("status", JsVal.str "analyzing")]).1.store
        "Invalid image data"
        (updateStateE rs [("status", JsVal.str "analyzing")]).1.time h1b
  · by_cases hbe : b = ""
    · subst hbe
      refine ⟨?_, ?_⟩
      · intro s hs
        simp only [writtenStates, updateStateE_snd, List.filterMap_append,
          List.filterMap_cons, List.filterMap_nil, List.nil_append, List.append_nil,
          List.mem_append, List.mem_singleton, reduceIte] at hs
        rcases hs with hs | hs
        · subst hs
          rw [updateStateE_fst_store_currentCapture, Option.getD_some] at h1ok
          exact h1ok
        · subst hs
          exact stateAfter_error
            (updateStateE rs [("status", JsVal.str "analyzing")]).1.store
            "Invalid image data"
            (updateStateE rs [("status", JsVal.str "analyzing")]).1.time h1b
      · exact stateAfter_error
          (updateStateE rs [("status", JsVal.str "analyzing")]).1.store
          "Invalid image data"
          (updateStateE rs [("status", JsVal.str "analyzing")]).1.time h1b
    · rcases ha : analyzeScreenshot env b
        (CaptureQueue.getSettings (updateStateE rs [("status", JsVal.str "analyzing")]).1.store)
        (updateStateE rs [("status", JsVal.str "analyzing")]).1 with ⟨ra, rs2, evsA⟩
      have hp0 := analyzeScreenshot_invariant env b
        (CaptureQueue.getSettings (updateStateE rs [("status", JsVal.str "analyzing")]).1.store)
        (updateStateE rs [("status", JsVal.str "analyzing")]).1 h1b
      rw [ha] at hp0
      obtain ⟨hpw, hpb, hpres⟩ := hp0
      have hpw' : writtenStates evsA = [] := hpw
      have hpb' : bothAbsent rs2.store.currentCapture = true := hpb
      have hcb : bothAbsent (externalCancel env.cancelBeforeComplete rs2).store.currentCapture
          = true := by
        unfold externalCancel
        split
        · exact (stateAfter_status_only rs2.store "cancelled" rs2.time hpb').1
        · exact hpb'
      cases ra with
      | error m =>
          simp only [ha, hbe, if_false]
          refine ⟨?_, ?_⟩
          · intro s hs
            simp only [writtenStates, updateStateE_snd, List.filterMap_append,
              List.filterMap_cons, List.filterMap_nil, List.nil_append, List.append_nil,
              List.mem_append, List.mem_singleton] at hs
            rw [show List.filterMap (fun e => match e with
                | Event.stateWrite s => some s
                | _ => none) evsA = writtenStates evsA from rfl, hpw'] at hs
            simp only [List.not_mem_nil, false_or, or_false, List.mem_singleton] at hs
            rcases hs with hs | hs
            · subst hs
              rw [updateStateE_fst_store_currentCapture, Option.getD_some] at h1ok
              exact h1ok
            · subst hs
              exact stateAfter_error rs2.store m rs2.time hpb'
          · exact stateAfter_error rs2.store m rs2.time hpb'
      | ok v =>
          obtain ⟨a, b2, hv⟩ := hpres v rfl
          subst hv
          simp only [ha, hbe, if_false]
          split
          · rename_i hchk
            refine ⟨?_, ?_⟩
            · intro s hs
              simp only [writtenStates, updateStateE_snd, List.filterMap_append,
                List.filterMap_cons, List.filterMap_nil, List.nil_append,
                List.append_nil, List.mem_append, List.mem_singleton] at hs
              rw [show List.filterMap (fun e => match e with
                  | Event.stateWrite s => some s
                  | _ => none) evsA = writtenStates evsA from rfl, hpw'] at hs
              simp only [List.not_mem_nil, or_false, false_or, List.mem_singleton] at hs
              subst hs
              rw [updateStateE_fst_store_currentCapture, Option.getD_some] at h1ok
              exact h1ok
            · exact stateOkB_of_cancelled _ hchk
          · refine ⟨?_, ?_⟩
            · intro s hs
              simp only [writtenStates, updateStateE_snd, List.filterMap_append,
                List.filterMap_cons, List.filterMap_nil, List.nil_append,
                List.append_nil, List.mem_append, List.mem_singleton] at hs
              rw [show List.filterMap (fun e => match e with
                  | Event.stateWrite s => some s
                  | _ => none) evsA = writtenStates evsA from rfl, hpw'] at hs
              simp only [List.not_mem_nil, false_or, or_false, List.mem_singleton] at hs
              rcases hs with hs | hs
              · subst hs
                rw [updateStateE_fst_store_currentCapture, Option.getD_some] at h1ok
                exact h1ok
              · subst hs
                exact stateAfter_complete
                  (externalCancel env.cancelBeforeComplete rs2).store a b2
                  (externalCancel env.cancelBeforeComplete rs2).time hcb
            · exact stateAfter_complete
                (externalCancel env.cancelBeforeComplete rs2).store a b2
                (externalCancel env.cancelBeforeComplete rs2).time hcb

theorem startAreaSelection_invariant (env : Env) (tabId : Int) (rs : RunState)
    (hb : bothAbsent rs.store.currentCapture = true) :
    (∀ s ∈ writtenStates (startAreaSelection env tabId rs).2, exclusiveOkB s = true)
    ∧ stateOkB (startAreaSelection env tabId rs).1.store.currentCapture = true := by
  simp only [startAreaSelection]
  split
  · refine ⟨?_, ?_⟩
    · intro s hs
      simp only [writtenStates, updateStateE_snd, List.filterMap_append,
        List.filterMap_cons, List.filterMap_nil, List.nil_append, List.append_nil,
        List.mem_append, List.mem_singleton, List.not_mem_nil, false_or, or_false] at hs
      subst hs
      exact stateAfter_selecting _ _ _ hb
    · exact stateAfter_selecting _ _ _ hb
  · refine ⟨?_, ?_⟩
    · intro s hs
      simp only [writtenStates, updateStateE_snd, List.filterMap_append,
        List.filterMap_cons, List.filterMap_nil, List.nil_append, List.append_nil,
        List.mem_append, List.mem_singleton, List.not_mem_nil, false_or, or_false] at hs
      subst hs
      exact stateAfter_error _ _ _ hb
    · exact stateAfter_error _ _ _ hb

theorem dequeue_currentCapture (st : Store) :
    (CaptureQueue.dequeue st).2.currentCapture = st.currentCapture := by
  unfold CaptureQueue.dequeue
  split
  · split
    · rfl
    · rfl
  · rfl

/-- C3: provided the worker picks up a request from a clean stored
capture state (result and error both absent, as after reset or a
capturing write), every capture state written while serving the
request satisfies the exclusivity invariant, and so does the final
stored state. -/
theorem C3_state_exclusivity_clean_start (env : Env) (rs : RunState)
    (hb : bothAbsent rs.store.currentCapture = true)
    (hok : stateOkB rs.store.currentCapture = true) :
    (∀ s ∈ writtenStates (processQueuedRequest env rs).2, exclusiveOkB s = true)
    ∧ stateOkB (processQueuedRequest env rs).1.store.currentCapture = true := by
  simp only [processQueuedRequest]
  split
  · exact ⟨fun s hs => absurd hs (List.not_mem_nil s), hok⟩
  · split
    · refine ⟨fun s hs => absurd hs (List.not_mem_nil s), ?_⟩
      show stateOkB (CaptureQueue.dequeue rs.store).2.currentCapture = true
      rw [dequeue_currentCapture]
      exact hok
    · rename_i request hreq
      have hbB : bothAbsent (CaptureQueue.dequeue rs.store).2.currentCapture = true := by
        rw [dequeue_currentCapture]
        exact hb
      split
      · refine ⟨?_, ?_⟩
        · intro s hs
          simp only [writtenStates, updateStateE_snd, List.filterMap_append,
            List.filterMap_cons, List.filterMap_nil, List.nil_append, List.append_nil,
            List.mem_append, List.mem_singleton, List.not_mem_nil, false_or,
            or_false] at hs
          subst hs
          exact stateAfter_error _ _ _ hbB
        · exact stateAfter_error _ _ _ hbB
      · rename_i tid htid
        split
        · refine ⟨?_, ?_⟩
          · intro s hs
            simp only [writtenStates, updateStateE_snd, List.filterMap_append,
              List.filterMap_cons, List.filterMap_nil, List.nil_append, List.append_nil,
              List.mem_append, List.mem_singleton, List.not_mem_nil, false_or,
              or_false] at hs
            subst hs
            exact stateAfter_error _ _ _ hbB
          · exact stateAfter_error _ _ _ hbB
        · have hcap := stateAfter_capturing (CaptureQueue.dequeue rs.store).2
            ((getField request "mode").getD JsVal.undef) tid rs.time
          split
          · split
            · refine ⟨?_, ?_⟩
              · intro s hs
                simp only [writtenStates, updateStateE_snd, List.filterMap_append,
                  List.filterMap_cons, List.filterMap_nil, List.nil_append,
                  List.append_nil, List.mem_append, List.mem_singleton,
                  List.not_mem_nil, false_or, or_false] at hs
                rcases hs with hs | hs
                · subst hs
                  exact hcap.2
                · subst hs
                  exact stateAfter_error _ _ _ hcap.1
              · exact stateAfter_error _ _ _ hcap.1
            · split
              · refine ⟨?_, ?_⟩
                · intro s hs
                  simp only [writtenStates, updateStateE_snd, List.filterMap_append,
                    List.filterMap_cons, List.filterMap_nil, List.nil_append,
                    List.append_nil, List.mem_append, List.mem_singleton,
                    List.not_mem_nil, false_or, or_false] at hs
                  rcases hs with hs | hs
                  · subst hs
                    exact hcap.2
                  · subst hs
                    exact stateAfter_error _ _ _ hcap.1
                · exact stateAfter_error _ _ _ hcap.1
              · rename_i dataUrl hdu
                refine ⟨?_, ?_⟩
                · intro s hs
                  simp only [writtenStates, updateStateE_snd, List.filterMap_append,
                    List.filterMap_cons, List.filterMap_nil, List.nil_append,
                    List.append_nil, List.mem_append, List.mem_singleton,
                    List.not_mem_nil, false_or, or_false] at hs
                  rcases hs with hs | hs
                  · subst hs
                    exact hcap.2
                  · exact (processCapturedImage_invariant env dataUrl _ hcap.1).1 s hs
                · exact (processCapturedImage_invariant env dataUrl _ hcap.1).2
          · split
            · split
              · refine ⟨?_, ?_⟩
                · intro s hs
                  simp only [writtenStates, updateStateE_snd, List.filterMap_append,
                    List.filterMap_cons, List.filterMap_nil, List.nil_append,
                    List.append_nil, List.mem_append, List.mem_singleton,
                    List.not_mem_nil, false_or, or_false] at hs
                  rcases hs with hs | hs
                  · subst hs
                    exact hcap.2
                  · subst hs
                    exact stateAfter_error _ _ _ hcap.1
                · exact stateAfter_error _ _ _ hcap.1
              · split
                · rename_i m evsC hcf
                  have hevsC : writtenStates evsC = [] := by
                    have h2 := captureFullPage_writtenStates env
                    rw [hcf] at h2
                    exact h2
                  refine ⟨?_, ?_⟩
                  · intro s hs
                    simp only [writtenStates, updateStateE_snd, List.filterMap_append,
                      List.filterMap_cons, List.filterMap_nil, List.nil_append,
                      List.append_nil, List.mem_append, List.mem_singleton,
                      List.not_mem_nil, false_or, or_false] at hs
                    rw [show List.filterMap (fun e => match e with
                        | Event.stateWrite s => some s
                        | _ => none) evsC = writtenStates evsC from rfl, hevsC] at hs
                    simp only [List.not_mem_nil, false_or, or_false] at hs
                    rcases hs with hs | hs
                    · subst hs
                      exact hcap.2
                    · subst hs
                      exact stateAfter_error _ _ _ hcap.1
                  · exact stateAfter_error _ _ _ hcap.1
                · rename_i dataUrl evsC hcf
                  have hevsC : writtenStates evsC = [] := by
                    have h2 := captureFullPage_writtenStates env
                    rw [hcf] at h2
                    exact h2
                  refine ⟨?_, ?_⟩
                  · intro s hs
                    simp only [writtenStates, updateStateE_snd, List.filterMap_append,
                      List.filterMap_cons, List.filterMap_nil, List.nil_append,
                      List.append_nil, List.mem_append, List.mem_singleton,
                      List.not_mem_nil, false_or, or_false] at hs
                    rw [show List.filterMap (fun e => match e with
                        | Event.stateWrite s => some s
                        | _ => none) evsC = writtenStates evsC from rfl, hevsC] at hs
                    simp only [List.not_mem_nil, false_or, or_false] at hs
                    rcases hs with hs | hs
                    · subst hs
                      exact hcap.2
                    · exact (processCapturedImage_invariant env dataUrl _ hcap.1).1 s hs
                  · exact (processCapturedImage_invariant env dataUrl _ hcap.1).2
            · split
              · refine ⟨?_, ?_⟩
                · intro s hs
                  simp only [writtenStates, updateStateE_snd, List.filterMap_append,
                    List.filterMap_cons, List.filterMap_nil, List.nil_append,
                    List.append_nil, List.mem_append, List.mem_singleton,
                    List.not_mem_nil, false_or, or_false] at hs
                  rcases hs with hs | hs
                  · subst hs
                    exact hcap.2
                  · exact (startAreaSelection_invariant env tid _ hcap.1).1 s hs
                · exact (startAreaSelection_invariant env tid _ hcap.1).2
              · refine ⟨?_, ?_⟩
                · intro s hs
                  simp only [writtenStates, updateStateE_snd, List.filterMap_append,
                    List.filterMap_cons, List.filterMap_nil, List.nil_append,
                    List.append_nil, List.mem_append, List.mem_singleton,
                    List.not_mem_nil, false_or, or_false] at hs
                  subst hs
                  exact hcap.2
                · exact hcap.2

/-- C3 counterexample: a request that completes leaves a state holding
result; a following request on a restricted url merges its error write
into that stale state (updateState is a shallow merge and nothing
clears the state before the pre-capture error paths), producing a
written state with status error, result present and error present. -/
theorem C3_stale_result_error_merge_counterexample :
    let settings : Settings := ⟨"openai", "openai", "", "", "", "", "k", "", ""⟩
    let env : Env := { ai := { openaiVision := .ok "hello", openaiText := .ok "world" },
                       tabGet := fun _ => .ok ⟨some "https://example.com"⟩,
                       visibleCapture := .ok "data:image/png;base64,AAAA" }
    let st1 := (CaptureQueue.enqueue (emptyStore settings)
      [("mode", JsVal.str "visible"), ("tabId", JsVal.num 1),
       ("url", JsVal.str "https://example.com")] "id1" 0).2
    let run1 := processQueuedRequest env ⟨st1, false, 0⟩
    let st2 := (CaptureQueue.enqueue run1.1.store
      [("mode", JsVal.str "visible"), ("tabId", JsVal.num 1),
       ("url", JsVal.str "chrome://settings")] "id2" 10).2
    let run2 := processQueuedRequest env { run1.1 with store := st2 }
    stateStatusIs run1.1.store "complete" = true
    ∧ ∃ s ∈ writtenStates run2.2, exclusiveOkB s = false := by
  decide

theorem C3_state_exclusivity_clean_start_witness :
    bothAbsent (emptyStore defaultSettings).currentCapture = true
    ∧ (∀ s ∈ writtenStates
        (processQueuedRequest {} ⟨emptyStore defaultSettings, false, 0⟩).2,
        exclusiveOkB s = true) :=
  ⟨by decide,
   (C3_state_exclusivity_clean_start {} ⟨emptyStore defaultSettings, false, 0⟩
      (by decide) (by decide)).1⟩
